import Mathlib

/-!
# Verification of `src/bin/pg_dump/compress_io.c`

A shallow embedding of the compression indirection layer used by the pg_dump
archiver, together with proofs about it.

The embedding translates the control flow of `compress_io.c` directly:

* `ParseCompressionOption`, `AllocateCompressor`, `WriteDataToArchive`,
  `EndCompressor`, `ReadDataFromArchive` and the zlib/none private routines
  keep their source names and their branching structure.
* `die_horribly` never returns in the source; it is modelled as a fatal
  error value (`DieErr`) that aborts the computation.
* The caller-supplied callbacks (`WriteFunc`, `ReadFunc`) and the downstream
  sink `ahwrite` live outside this file's source; they are modelled as
  explicit state-passing functions, with the sink collecting the delivered
  byte spans.
* The zlib codec itself (`deflate`, `inflate`, ...) is an external library.
  Modelled from the spec: the codec is a lossless streaming codec with
  bounded-output-buffer accounting; the compressed representation of a byte
  stream is the stream itself followed by an end-of-stream mark `ZEOS`
  (the value 256, outside the byte range), which is what lets the
  decompression side report "stream ended".
* The `while` loops of the source are embedded as fuel-indexed recursions;
  running out of fuel is a distinguished outcome (`nofuel`), never silently
  treated as success or failure.

Bytes are modelled as `Nat` (genuine byte streams have all elements `< 256`).
-/

/-- `ZLIB_OUT_SIZE` from `compress_io.h`. Modelled from the spec: the header
is not part of the source tree given here; the spec fixes the staging buffer
capacity as a process-lifetime constant. -/
def ZLIB_OUT_SIZE : Nat := 4096

/-- `ZLIB_IN_SIZE` from `compress_io.h`. Modelled from the spec (see
`ZLIB_OUT_SIZE`). -/
def ZLIB_IN_SIZE : Nat := 4096

/-- `COMPR_ALG_NONE` of the `CompressionAlgorithm` enum from
`compress_io.h`, embedded as its underlying integer value. -/
def COMPR_ALG_NONE : Int := 0

/-- `COMPR_ALG_LIBZ` of the `CompressionAlgorithm` enum from
`compress_io.h`, embedded as its underlying integer value. -/
def COMPR_ALG_LIBZ : Int := 1

/-- zlib's `Z_DEFAULT_COMPRESSION` sentinel (-1), from `zlib.h`. -/
def Z_DEFAULT_COMPRESSION : Int := -1

/-- Modelled from the spec: the end-of-stream mark inside the modelled
compressed representation.  It is outside the byte range `0..255`, so it can
never collide with payload bytes of a genuine byte stream. -/
def ZEOS : Nat := 256

/-- The fatal-error sites of `compress_io.c`.  `die_horribly` is not part of
the given source tree; modelled from the spec as "report fatal condition and
stop", i.e. an error value that ends the computation. Each constructor
corresponds to one diagnostic message of the source. -/
inductive DieErr where
  /-- "Invalid compression code: %d" -/
  | invalidCompression (code : Int)
  /-- "not built with zlib support" -/
  | notBuiltWithZlib
  /-- "out of memory" -/
  | outOfMemory
  /-- "could not compress data: %s" -/
  | couldNotCompress
  /-- "could not write to output file: %s" -/
  | couldNotWriteOutput
  /-- "could not close compression stream: %s" -/
  | couldNotCloseStream
  /-- "could not uncompress data: %s" -/
  | couldNotUncompress
  /-- "could not close compression library: %s" -/
  | couldNotCloseLibrary
deriving DecidableEq, Repr

/-- zlib return codes used by `compress_io.c`. -/
inductive ZRes where
  | Z_OK
  | Z_STREAM_END
  | Z_STREAM_ERROR
  | Z_BUF_ERROR
deriving DecidableEq, Repr

/-- The compression-side `z_stream` state.  Modelled from the spec: the
codec state is owned and opaque; this model keeps the unconsumed input
(`avail_in`, as the actual bytes), the produced-but-not-yet-output
compressed data (`hold`) and whether the end-of-stream mark has already
been queued (`finQueued`). -/
structure ZStreamDef where
  avail_in : List Nat
  hold : List Nat
  finQueued : Bool
deriving DecidableEq, Repr

/-- Modelled from the spec: one `deflate(zp, flush)` call of the lossless
model codec against an output region with `avail_out` free slots.  It
consumes all supplied input into the codec, queues the end-of-stream mark on
a finalizing call, and moves at most `avail_out` compressed elements to the
output region.  Returns (new state, emitted output, return code);
`Z_STREAM_END` is reported exactly when finalizing and nothing remains
inside the codec. -/
def deflateModel (st : ZStreamDef) (flush : Bool) (avail_out : Nat) :
    ZStreamDef × List Nat × ZRes :=
  let pending := st.hold ++ st.avail_in ++
    (if flush ∧ st.finQueued = false then [ZEOS] else [])
  let emitted := pending.take avail_out
  let rest := pending.drop avail_out
  let res := if flush ∧ rest = [] then ZRes.Z_STREAM_END else ZRes.Z_OK
  (⟨[], rest, st.finQueued || flush⟩, emitted, res)

/-- Modelled from the spec: `deflateEnd` of the model codec; teardown of the
model codec always succeeds. -/
def deflateEndModel (_st : ZStreamDef) : ZRes := ZRes.Z_OK

/-- The decompression-side `z_stream` state.  `avail_in` is the unconsumed
compressed input, `hold` the decompressed bytes not yet moved to the output
region, `ended` whether the end-of-stream mark has been consumed. -/
structure ZStreamInf where
  avail_in : List Nat
  hold : List Nat
  ended : Bool
deriving DecidableEq, Repr

/-- Modelled from the spec: one `inflate(zp, 0)` call of the model codec
against an output region with `avail_out` free slots.  It consumes all
supplied compressed input (payload elements become decompressed bytes, the
end-of-stream mark sets `ended`), and moves at most `avail_out` decompressed
bytes to the output region.  `Z_STREAM_END` is reported exactly when the
stream has ended and all output has been delivered; `Z_BUF_ERROR` when no
progress is possible (no input and no output produced). -/
def inflateModel (st : ZStreamInf) (avail_out : Nat) :
    ZStreamInf × List Nat × ZRes :=
  let hold1 := st.hold ++ st.avail_in.filter (fun b => b ≠ ZEOS)
  let ended1 := st.ended || decide (ZEOS ∈ st.avail_in)
  let out := hold1.take avail_out
  let rest := hold1.drop avail_out
  let res :=
    if ended1 = true ∧ rest = [] then ZRes.Z_STREAM_END
    else if st.avail_in = [] ∧ out = [] then ZRes.Z_BUF_ERROR
    else ZRes.Z_OK
  (⟨[], rest, ended1⟩, out, res)

/-- Modelled from the spec: `inflateEnd` of the model codec; teardown of the
model codec always succeeds. -/
def inflateEndModel (_st : ZStreamInf) : ZRes := ZRes.Z_OK

/-- The `CompressorState` of `compress_io.h` (the fields used by
`compress_io.c`): the algorithm tag (as its underlying integer, exactly as
the C `enum` field), the compressor codec state `zp`, the current contents
of the `zlibOut` staging buffer (the region already written through
`next_out`; its length is `zlibOutSize - avail_out`), and `zlibOutSize`.
The `writeF` callback member is modelled as an explicit argument of the
operations (it is a borrowed reference, not owned state). -/
structure CompressorState where
  comprAlg : Int
  zp : ZStreamDef
  zlibOut : List Nat
  zlibOutSize : Nat
deriving DecidableEq, Repr

/-- Outcome of the `DeflateCompressorZlib` flush loop. -/
inductive DLoopOut where
  | ok (zp : ZStreamDef) (zlibOut : List Nat)
  | fatal (e : DieErr)
  | nofuel
deriving DecidableEq, Repr

/-- Outcome of `WriteDataToArchive` (and of its per-algorithm workers):
the updated context together with the returned byte count, or a fatal
error, or fuel exhaustion of the embedded loop. -/
inductive WriteOut where
  | ok (cs : CompressorState) (n : Nat)
  | fatal (e : DieErr)
  | nofuel
deriving DecidableEq, Repr

/-- Which resources `EndCompressor` has released: the `cs->zlibOut` staging
buffer, the `cs->zp` codec state, and the `cs` context itself. -/
structure Freed where
  zlibOut : Bool
  zp : Bool
  cs : Bool
deriving DecidableEq, Repr

/-- Outcome of `EndCompressor` / `EndCompressorZlib`, recording which owned
resources were released on that path. -/
inductive EndOut where
  | ok (freed : Freed)
  | fatal (e : DieErr) (freed : Freed)
  | nofuel
deriving DecidableEq, Repr

/-- Outcome tag of the read path. `oob` is the modelled out-of-bounds store
for the trailing-zero write into the output staging buffer (it never
occurs, see the safety theorem). -/
inductive RStatus where
  | ok
  | fatal (e : DieErr)
  | oob
  | nofuel
deriving DecidableEq, Repr

/-- `ParseCompressionOption` of `compress_io.c`: interprets the numeric
`compression` value, yielding the algorithm and the zlib level (which is
just the passed-in value).  `die_horribly` on an invalid code becomes the
error result. -/
def ParseCompressionOption (compression : Int) : Except DieErr (Int × Int) :=
  if compression = Z_DEFAULT_COMPRESSION ∨ (0 < compression ∧ compression ≤ 9) then
    Except.ok (COMPR_ALG_LIBZ, compression)
  else if compression = 0 then
    Except.ok (COMPR_ALG_NONE, compression)
  else
    Except.error (DieErr.invalidCompression compression)

/-- `InitCompressorZlib` of `compress_io.c`: allocates the codec state and
the `ZLIB_OUT_SIZE + 1`-byte staging buffer, initializes deflation and
primes `next_out`/`avail_out` (buffer empty, full capacity free).  The model
codec's `deflateInit` always succeeds, and allocation is modelled as always
succeeding; `level` only parameterizes the real codec's effort and does not
affect the model. -/
def InitCompressorZlib (cs : CompressorState) (_level : Int) : CompressorState :=
  { cs with zp := ⟨[], [], false⟩, zlibOut := [], zlibOutSize := ZLIB_OUT_SIZE }

/-- `AllocateCompressor` of `compress_io.c`.  `haveLibz` reflects whether
the build has `HAVE_LIBZ`; without it, a zlib selection dies with "not
built with zlib support".  `calloc` zeroes the context before the
algorithm-specific initialization. -/
def AllocateCompressor (haveLibz : Bool) (compression : Int) :
    Except DieErr CompressorState :=
  match ParseCompressionOption compression with
  | Except.error e => Except.error e
  | Except.ok (alg, level) =>
    if haveLibz = false ∧ alg = COMPR_ALG_LIBZ then
      Except.error DieErr.notBuiltWithZlib
    else
      let cs : CompressorState :=
        { comprAlg := alg, zp := ⟨[], [], false⟩, zlibOut := [], zlibOutSize := 0 }
      if haveLibz = true ∧ alg = COMPR_ALG_LIBZ then
        Except.ok (InitCompressorZlib cs level)
      else
        Except.ok cs

/-- `DeflateCompressorZlib` of `compress_io.c`: the flush loop
`while (zp->avail_in != 0 || flush)`.  The caller-supplied `WriteFunc` is an
explicit state-passing function over `W`; `zlibOut` is the current staging
buffer content and `outSize` is `cs->zlibOutSize`.  After each `deflate`
call, `avail_out = outSize - zlibOut.length`; the staging buffer is
delivered to `writeF` and reset when the source's condition holds, with the
inner `avail_out < outSize` guard preventing a zero-length chunk.  The
`while` loop is embedded with fuel. -/
def DeflateCompressorZlib {W : Type} (writeF : W → List Nat → W × Nat) (flush : Bool) :
    Nat → ZStreamDef → List Nat → Nat → W → W × DLoopOut
  | 0, _zp, _zlibOut, _outSize, w => (w, DLoopOut.nofuel)
  | fuel + 1, zp, zlibOut, outSize, w =>
    if zp.avail_in = [] ∧ flush = false then (w, DLoopOut.ok zp zlibOut)
    else
      let step := deflateModel zp flush (outSize - zlibOut.length)
      let zp1 := step.1
      let out1 := zlibOut ++ step.2.1
      let res := step.2.2
      if res = ZRes.Z_STREAM_ERROR then (w, DLoopOut.fatal DieErr.couldNotCompress)
      else
        -- avail_out after the deflate call:
        let avail_out := outSize - out1.length
        if (flush ∧ avail_out < outSize) ∨ avail_out = 0 ∨ zp1.avail_in ≠ [] then
          if avail_out < outSize then
            -- len = zlibOutSize - avail_out = out1.length produced bytes
            let wr := writeF w out1
            if wr.2 ≠ out1.length then (wr.1, DLoopOut.fatal DieErr.couldNotWriteOutput)
            else if res = ZRes.Z_STREAM_END then (wr.1, DLoopOut.ok zp1 [])
            else DeflateCompressorZlib writeF flush fuel zp1 [] outSize wr.1
          else
            if res = ZRes.Z_STREAM_END then (w, DLoopOut.ok zp1 [])
            else DeflateCompressorZlib writeF flush fuel zp1 [] outSize w
        else
          if res = ZRes.Z_STREAM_END then (w, DLoopOut.ok zp1 out1)
          else DeflateCompressorZlib writeF flush fuel zp1 out1 outSize w

/-- `WriteDataToArchiveZlib` of `compress_io.c`: points `next_in` at the
data, runs the non-finalizing flush loop, and returns `dLen` (on the C
side, either all of `dLen` was accepted or `die_horribly` was called). -/
def WriteDataToArchiveZlib {W : Type} (writeF : W → List Nat → W × Nat) (fuel : Nat)
    (cs : CompressorState) (data : List Nat) (w : W) : W × WriteOut :=
  let zp0 := { cs.zp with avail_in := data }
  match DeflateCompressorZlib writeF false fuel zp0 cs.zlibOut cs.zlibOutSize w with
  | (w1, DLoopOut.ok zp1 out1) =>
    (w1, WriteOut.ok { cs with zp := zp1, zlibOut := out1 } data.length)
  | (w1, DLoopOut.fatal e) => (w1, WriteOut.fatal e)
  | (w1, DLoopOut.nofuel) => (w1, WriteOut.nofuel)

/-- `WriteDataToArchiveNone` of `compress_io.c`: forwards the data to
`writeF` unchanged and checks the returned length. -/
def WriteDataToArchiveNone {W : Type} (writeF : W → List Nat → W × Nat)
    (cs : CompressorState) (data : List Nat) (w : W) : W × WriteOut :=
  let wr := writeF w data
  if wr.2 ≠ data.length then (wr.1, WriteOut.fatal DieErr.couldNotWriteOutput)
  else (wr.1, WriteOut.ok cs data.length)

/-- `WriteDataToArchive` of `compress_io.c`: the `switch (cs->comprAlg)`
dispatch, including the `return 0; /* keep compiler quiet */` fall-through
after the switch. -/
def WriteDataToArchive {W : Type} (haveLibz : Bool) (writeF : W → List Nat → W × Nat)
    (fuel : Nat) (cs : CompressorState) (data : List Nat) (w : W) : W × WriteOut :=
  if cs.comprAlg = COMPR_ALG_LIBZ then
    if haveLibz then WriteDataToArchiveZlib writeF fuel cs data w
    else (w, WriteOut.fatal DieErr.notBuiltWithZlib)
  else if cs.comprAlg = COMPR_ALG_NONE then
    WriteDataToArchiveNone writeF cs data w
  else
    (w, WriteOut.ok cs 0)

/-- `EndCompressorZlib` of `compress_io.c`: clears `next_in`, runs the
finalizing flush loop, checks `deflateEnd`, then frees `cs->zlibOut` and
`cs->zp`.  `die_horribly` never returns, so on the failure paths the frees
are not reached; the `Freed` record reports what was released. -/
def EndCompressorZlib {W : Type} (writeF : W → List Nat → W × Nat) (fuel : Nat)
    (cs : CompressorState) (w : W) : W × EndOut :=
  let zp0 := { cs.zp with avail_in := ([] : List Nat) }
  match DeflateCompressorZlib writeF true fuel zp0 cs.zlibOut cs.zlibOutSize w with
  | (w1, DLoopOut.nofuel) => (w1, EndOut.nofuel)
  | (w1, DLoopOut.fatal e) => (w1, EndOut.fatal e ⟨false, false, false⟩)
  | (w1, DLoopOut.ok zp1 _out1) =>
    if deflateEndModel zp1 ≠ ZRes.Z_OK then
      (w1, EndOut.fatal DieErr.couldNotCloseStream ⟨false, false, false⟩)
    else
      (w1, EndOut.ok ⟨true, true, false⟩)

/-- `EndCompressor` of `compress_io.c`: runs `EndCompressorZlib` for a zlib
context when the build has zlib (in a build without `HAVE_LIBZ`, the guard
is compiled out entirely), then frees the context itself. -/
def EndCompressor {W : Type} (haveLibz : Bool) (writeF : W → List Nat → W × Nat)
    (fuel : Nat) (cs : CompressorState) (w : W) : W × EndOut :=
  if haveLibz = true ∧ cs.comprAlg = COMPR_ALG_LIBZ then
    match EndCompressorZlib writeF fuel cs w with
    | (w1, EndOut.ok f) => (w1, EndOut.ok { f with cs := true })
    | (w1, EndOut.fatal e f) => (w1, EndOut.fatal e f)
    | (w1, EndOut.nofuel) => (w1, EndOut.nofuel)
  else (w, EndOut.ok ⟨false, false, true⟩)

/-- The inner loop `while (zp->avail_in > 0)` of `ReadDataFromArchiveZlib`:
reset `next_out`/`avail_out` to the full `ZLIB_OUT_SIZE`, call the
decompressor, die on any result other than ok/stream-end, store the trailing
zero byte at index `ZLIB_OUT_SIZE - avail_out` of the
`ZLIB_OUT_SIZE + 1`-byte buffer (a bounds-checked store here: `oob` if it
were out of range), and pass the produced bytes to `ahwrite` (the collected
`acc`).  Embedded with fuel; since the model codec consumes all of
`avail_in` on each call, `avail_in.length + 1` fuel always suffices, and
the caller supplies that. -/
def ReadZlibInner :
    Nat → ZStreamInf → ZRes → List (List Nat) →
    ZStreamInf × ZRes × List (List Nat) × RStatus
  | 0, zp, res, acc => (zp, res, acc, RStatus.nofuel)
  | fuel + 1, zp, res, acc =>
    if zp.avail_in = [] then (zp, res, acc, RStatus.ok)
    else
      let step := inflateModel zp ZLIB_OUT_SIZE
      let zp1 := step.1
      let out := step.2.1
      let res1 := step.2.2
      if res1 ≠ ZRes.Z_OK ∧ res1 ≠ ZRes.Z_STREAM_END then
        (zp1, res1, acc, RStatus.fatal DieErr.couldNotUncompress)
      else
        -- out[ZLIB_OUT_SIZE - zp->avail_out] = '\0' with
        -- avail_out = ZLIB_OUT_SIZE - out.length, i.e. index out.length,
        -- into the buffer of ZLIB_OUT_SIZE + 1 bytes:
        if out.length < ZLIB_OUT_SIZE + 1 then
          ReadZlibInner fuel zp1 res1 (acc ++ [out])
        else (zp1, res1, acc, RStatus.oob)

/-- The outer loop `while ((cnt = readF(...)))` of `ReadDataFromArchiveZlib`:
pull one chunk from the caller-supplied `ReadFunc` (an explicit
state-passing function over `R`; an empty chunk signals EOF), point
`next_in` at it, and run the inner loop.  Embedded with fuel, since the
source of chunks is unbounded. -/
def ReadZlibOuter {R : Type} (readF : R → R × List Nat) :
    Nat → R → ZStreamInf → ZRes → List (List Nat) →
    R × ZStreamInf × ZRes × List (List Nat) × RStatus
  | 0, r, zp, res, acc => (r, zp, res, acc, RStatus.nofuel)
  | fuel + 1, r, zp, res, acc =>
    let rd := readF r
    if rd.2 = [] then (rd.1, zp, res, acc, RStatus.ok)
    else
      match ReadZlibInner (rd.2.length + 1) { zp with avail_in := rd.2 } res acc with
      | (zp2, res2, acc2, RStatus.ok) => ReadZlibOuter readF fuel rd.1 zp2 res2 acc2
      | (zp2, res2, acc2, st) => (rd.1, zp2, res2, acc2, st)

/-- The drain loop `while (res != Z_STREAM_END)` of
`ReadDataFromArchiveZlib`, run after upstream EOF with no new input:
repeatedly invoke the decompressor, die on any result other than
ok/stream-end, perform the bounds-checked trailing-zero store, and forward
the produced bytes.  Embedded with fuel. -/
def ReadZlibDrain :
    Nat → ZStreamInf → ZRes → List (List Nat) →
    ZStreamInf × ZRes × List (List Nat) × RStatus
  | 0, zp, res, acc => (zp, res, acc, RStatus.nofuel)
  | fuel + 1, zp, res, acc =>
    if res = ZRes.Z_STREAM_END then (zp, res, acc, RStatus.ok)
    else
      let step := inflateModel zp ZLIB_OUT_SIZE
      let zp1 := step.1
      let out := step.2.1
      let res1 := step.2.2
      if res1 ≠ ZRes.Z_OK ∧ res1 ≠ ZRes.Z_STREAM_END then
        (zp1, res1, acc, RStatus.fatal DieErr.couldNotUncompress)
      else
        if out.length < ZLIB_OUT_SIZE + 1 then
          ReadZlibDrain fuel zp1 res1 (acc ++ [out])
        else (zp1, res1, acc, RStatus.oob)

/-- `ReadDataFromArchiveZlib` of `compress_io.c`: allocate and initialize
the decompressor (the model codec's `inflateInit` and the allocations always
succeed), run the outer loop until upstream EOF, clear `next_in`, run the
drain loop until stream end, and check `inflateEnd`.  Returns the final
reader state, the spans passed to `ahwrite` in order, and the outcome. -/
def ReadDataFromArchiveZlib {R : Type} (readF : R → R × List Nat) (fuel : Nat)
    (r : R) : R × List (List Nat) × RStatus :=
  match ReadZlibOuter readF fuel r ⟨[], [], false⟩ ZRes.Z_OK [] with
  | (r1, zp1, res1, acc1, RStatus.ok) =>
    match ReadZlibDrain fuel { zp1 with avail_in := ([] : List Nat) } res1 acc1 with
    | (zp3, _res3, acc2, RStatus.ok) =>
      if inflateEndModel zp3 ≠ ZRes.Z_OK then (r1, acc2, RStatus.fatal DieErr.couldNotCloseLibrary)
      else (r1, acc2, RStatus.ok)
    | (_, _, acc2, st) => (r1, acc2, st)
  | (r1, _, _, acc1, st) => (r1, acc1, st)

/-- The loop of `ReadDataFromArchiveNone`: pull chunks via `readF` and
forward each one verbatim to `ahwrite` until a zero-length chunk signals
EOF. -/
def ReadNoneLoop {R : Type} (readF : R → R × List Nat) :
    Nat → R → List (List Nat) → R × List (List Nat) × RStatus
  | 0, r, acc => (r, acc, RStatus.nofuel)
  | fuel + 1, r, acc =>
    let rd := readF r
    if rd.2 = [] then (rd.1, acc, RStatus.ok)
    else ReadNoneLoop readF fuel rd.1 (acc ++ [rd.2])

/-- `ReadDataFromArchiveNone` of `compress_io.c`. -/
def ReadDataFromArchiveNone {R : Type} (readF : R → R × List Nat) (fuel : Nat)
    (r : R) : R × List (List Nat) × RStatus :=
  ReadNoneLoop readF fuel r []

/-- `ReadDataFromArchive` of `compress_io.c`: parse the compression value
(dying on an invalid code before any I/O), then dispatch on the algorithm;
a zlib selection in a build without `HAVE_LIBZ` dies with "not built with
zlib support". -/
def ReadDataFromArchive {R : Type} (haveLibz : Bool) (readF : R → R × List Nat)
    (fuel : Nat) (compression : Int) (r : R) : R × List (List Nat) × RStatus :=
  match ParseCompressionOption compression with
  | Except.error e => (r, [], RStatus.fatal e)
  | Except.ok (alg, _level) =>
    if alg = COMPR_ALG_NONE then ReadDataFromArchiveNone readF fuel r
    else if alg = COMPR_ALG_LIBZ then
      if haveLibz then ReadDataFromArchiveZlib readF fuel r
      else (r, [], RStatus.fatal DieErr.notBuiltWithZlib)
    else (r, [], RStatus.ok)

/-- The collecting `WriteFunc`: appends each chunk to the archive (a list of
chunks) and reports the full length as written. -/
def collectW : List (List Nat) → List Nat → List (List Nat) × Nat :=
  fun w c => (w ++ [c], c.length)

/-- Wrap an arbitrary `WriteFunc` so that every chunk it is invoked with is
also logged, leaving its behavior unchanged.  Used to state properties about
all `writeF` invocations. -/
def traceW {W : Type} (writeF : W → List Nat → W × Nat) :
    W × List (List Nat) → List Nat → (W × List (List Nat)) × Nat :=
  fun p c =>
    let r := writeF p.1 c
    ((r.1, p.2 ++ [c]), r.2)

/-- The feeding `ReadFunc`: hands over the pre-collected chunks one at a
time, and a zero-length chunk (EOF) once they are exhausted. -/
def feedR : List (List Nat) → List (List Nat) × List Nat :=
  fun chunks =>
    match chunks with
    | [] => ([], [])
    | c :: rest => (rest, c)

/-- Drive a write session over an already-allocated context: one
`WriteDataToArchive` call per piece, against the collecting `WriteFunc`,
with sufficient fuel for each call.  `none` on any fatal outcome. -/
def writePieces (haveLibz : Bool) :
    List (List Nat) → CompressorState → List (List Nat) →
    Option (CompressorState × List (List Nat))
  | [], cs, w => some (cs, w)
  | p :: rest, cs, w =>
    match WriteDataToArchive haveLibz collectW
        (cs.zp.avail_in.length + cs.zp.hold.length + p.length + 3) cs p w with
    | (w1, WriteOut.ok cs1 _) => writePieces haveLibz rest cs1 w1
    | _ => none

/-- A whole write session: `AllocateCompressor`, one `WriteDataToArchive`
per piece, `EndCompressor`, collecting the chunks delivered to the
`WriteFunc`.  `none` on any fatal outcome. -/
def runSession (haveLibz : Bool) (compression : Int) (pieces : List (List Nat)) :
    Option (List (List Nat)) :=
  match AllocateCompressor haveLibz compression with
  | Except.error _ => none
  | Except.ok cs =>
    match writePieces haveLibz pieces cs [] with
    | some (cs1, w1) =>
      match EndCompressor haveLibz collectW
          (cs1.zp.avail_in.length + cs1.zp.hold.length + 3) cs1 w1 with
      | (w2, EndOut.ok _) => some w2
      | _ => none
    | none => none

/-- A concrete passthrough (None) context, as produced by
`AllocateCompressor true 0`. -/
def csNone : CompressorState := ⟨COMPR_ALG_NONE, ⟨[], [], false⟩, [], 0⟩

/-- A concrete freshly-initialized Deflate context, as produced by
`AllocateCompressor true c` for a zlib-selecting `c`. -/
def csLibz : CompressorState := ⟨COMPR_ALG_LIBZ, ⟨[], [], false⟩, [], ZLIB_OUT_SIZE⟩

/-- A `WriteFunc` that always reports a short write (0 bytes written). -/
def shortW : Unit → List Nat → Unit × Nat := fun u _ => (u, 0)

/-- A `WriteFunc` that discards the chunk but reports it fully written. -/
def fullW : Unit → List Nat → Unit × Nat := fun u c => (u, c.length)

/-! ## Basic facts about option parsing and allocation -/

theorem ParseCompressionOption_libz (c : Int)
    (h : c = Z_DEFAULT_COMPRESSION ∨ (0 < c ∧ c ≤ 9)) :
    ParseCompressionOption c = Except.ok (COMPR_ALG_LIBZ, c) := by
  unfold ParseCompressionOption
  rw [if_pos h]

theorem ParseCompressionOption_none :
    ParseCompressionOption 0 = Except.ok (COMPR_ALG_NONE, 0) := by
  unfold ParseCompressionOption Z_DEFAULT_COMPRESSION
  norm_num

theorem ParseCompressionOption_invalid (c : Int)
    (h1 : c ≠ Z_DEFAULT_COMPRESSION) (h2 : ¬(0 < c ∧ c ≤ 9)) (h3 : c ≠ 0) :
    ParseCompressionOption c = Except.error (DieErr.invalidCompression c) := by
  unfold ParseCompressionOption
  have hor : ¬(c = Z_DEFAULT_COMPRESSION ∨ (0 < c ∧ c ≤ 9)) := by
    rintro (h | h)
    · exact h1 h
    · exact h2 h
  rw [if_neg hor, if_neg h3]

theorem parseCompressionOption_alg (c : Int) (p : Int × Int)
    (h : ParseCompressionOption c = Except.ok p) :
    p.1 = COMPR_ALG_LIBZ ∨ p.1 = COMPR_ALG_NONE := by
  unfold ParseCompressionOption at h
  split at h
  · left
    simp only [Except.ok.injEq] at h
    rw [← h]
  · split at h
    · right
      simp only [Except.ok.injEq] at h
      rw [← h]
    · exact absurd h (by simp)

theorem allocateCompressor_alg (haveLibz : Bool) (c : Int) (cs : CompressorState)
    (h : AllocateCompressor haveLibz c = Except.ok cs) :
    cs.comprAlg = COMPR_ALG_LIBZ ∨ cs.comprAlg = COMPR_ALG_NONE := by
  unfold AllocateCompressor at h
  rcases hp : ParseCompressionOption c with e | p
  · rw [hp] at h
    exact absurd h (by simp)
  · obtain ⟨alg, level⟩ := p
    rw [hp] at h
    have halg := parseCompressionOption_alg c (alg, level) hp
    simp only at h
    split at h
    · exact absurd h (by simp)
    · split at h
      · simp only [Except.ok.injEq] at h
        rw [← h]
        simpa [InitCompressorZlib] using halg
      · simp only [Except.ok.injEq] at h
        rw [← h]
        exact halg

/-! ## C7: invalid compression hints are rejected before any I/O -/

/-- **C7.** For every compression hint outside `{0} ∪ [1,9] ∪ {Z_DEFAULT_COMPRESSION}`,
`AllocateCompressor` fails with the invalid-compression error and creates no
context, and `ReadDataFromArchive` fails with the same error without invoking
the input callback or the sink (reader state unchanged, no spans delivered). -/
theorem invalid_hint_rejected_before_io (c : Int)
    (h1 : c ≠ Z_DEFAULT_COMPRESSION) (h2 : ¬(0 < c ∧ c ≤ 9)) (h3 : c ≠ 0) :
    (∀ haveLibz, AllocateCompressor haveLibz c =
      Except.error (DieErr.invalidCompression c)) ∧
    (∀ (R : Type) (haveLibz : Bool) (readF : R → R × List Nat) (fuel : Nat) (r : R),
      ReadDataFromArchive haveLibz readF fuel c r =
        (r, [], RStatus.fatal (DieErr.invalidCompression c))) := by
  have hp := ParseCompressionOption_invalid c h1 h2 h3
  constructor
  · intro hl
    unfold AllocateCompressor
    rw [hp]
  · intro R hl readF fuel r
    unfold ReadDataFromArchive
    rw [hp]

/-- Witness for C7 at the concrete invalid hint 42. -/
theorem invalid_hint_rejected_before_io_witness :
    ((42 : Int) ≠ Z_DEFAULT_COMPRESSION) ∧ (¬(0 < (42 : Int) ∧ (42 : Int) ≤ 9)) ∧
    ((42 : Int) ≠ 0) ∧
    AllocateCompressor true 42 = Except.error (DieErr.invalidCompression 42) ∧
    ReadDataFromArchive true feedR 5 42 [[1]] =
      ([[1]], [], RStatus.fatal (DieErr.invalidCompression 42)) := by
  refine ⟨by decide, by decide, by decide, ?_, ?_⟩
  · exact (invalid_hint_rejected_before_io 42 (by decide) (by decide) (by decide)).1 true
  · exact (invalid_hint_rejected_before_io 42 (by decide) (by decide) (by decide)).2
      (List (List Nat)) true feedR 5 [[1]]


/-! ## C5 / C10: the write entry point returns the full input length -/

theorem writeDataToArchive_ok_length {W : Type} (haveLibz : Bool)
    (writeF : W → List Nat → W × Nat) (fuel : Nat) (cs : CompressorState)
    (data : List Nat) (w : W) (cs' : CompressorState) (n : Nat)
    (halg : cs.comprAlg = COMPR_ALG_LIBZ ∨ cs.comprAlg = COMPR_ALG_NONE)
    (h : (WriteDataToArchive haveLibz writeF fuel cs data w).2 = WriteOut.ok cs' n) :
    n = data.length := by
  rcases halg with halg | halg
  · rw [WriteDataToArchive, if_pos halg] at h
    by_cases hhl : haveLibz
    · rw [if_pos hhl] at h
      obtain ⟨w1, o, hd⟩ : ∃ w1 o,
          DeflateCompressorZlib writeF false fuel { cs.zp with avail_in := data }
            cs.zlibOut cs.zlibOutSize w = (w1, o) := ⟨_, _, rfl⟩
      unfold WriteDataToArchiveZlib at h
      simp only [hd] at h
      cases o with
      | ok zp1 out1 =>
        simp only [WriteOut.ok.injEq] at h
        exact h.2.symm
      | fatal e => simp at h
      | nofuel => simp at h
    · rw [if_neg hhl] at h
      simp at h
  · have hne : cs.comprAlg ≠ COMPR_ALG_LIBZ := by
      rw [halg]; unfold COMPR_ALG_NONE COMPR_ALG_LIBZ; norm_num
    rw [WriteDataToArchive, if_neg hne, if_pos halg] at h
    unfold WriteDataToArchiveNone at h
    by_cases hw : (writeF w data).2 ≠ data.length
    · rw [if_pos hw] at h
      simp at h
    · rw [if_neg hw] at h
      simp only [WriteOut.ok.injEq] at h
      exact h.2.symm

/-- **C5.** For every context whose algorithm is Deflate or None, whenever
`WriteDataToArchive` completes normally it returns exactly the input length
`data.length`: the entire input is accepted, never a partial count. -/
theorem write_returns_whole_input_length {W : Type} (haveLibz : Bool)
    (writeF : W → List Nat → W × Nat) (fuel : Nat) (cs : CompressorState)
    (data : List Nat) (w : W) (cs' : CompressorState) (n : Nat)
    (halg : cs.comprAlg = COMPR_ALG_LIBZ ∨ cs.comprAlg = COMPR_ALG_NONE)
    (h : (WriteDataToArchive haveLibz writeF fuel cs data w).2 = WriteOut.ok cs' n) :
    n = data.length :=
  writeDataToArchive_ok_length haveLibz writeF fuel cs data w cs' n halg h

/-- Witness for C5: a concrete passthrough write of two bytes returns 2. -/
theorem write_returns_whole_input_length_witness :
    (csNone.comprAlg = COMPR_ALG_LIBZ ∨ csNone.comprAlg = COMPR_ALG_NONE) ∧
    (WriteDataToArchive true fullW 3 csNone [7, 8] ()).2 = WriteOut.ok csNone 2 ∧
    (2 : Nat) = [7, 8].length := by
  refine ⟨Or.inr rfl, by decide, ?_⟩
  exact write_returns_whole_input_length true fullW 3 csNone [7, 8] () csNone 2
    (Or.inr rfl) (by decide)

/-- **C10.** Every context produced by `AllocateCompressor` carries the
algorithm `COMPR_ALG_LIBZ` or `COMPR_ALG_NONE`, so the
`return 0 /* keep compiler quiet */` fall-through of `WriteDataToArchive`
is unreachable: on such contexts a normal return for nonempty input is
never 0. -/
theorem allocated_alg_fallthrough_unreachable (haveLibz : Bool) (c : Int)
    (cs : CompressorState) (hA : AllocateCompressor haveLibz c = Except.ok cs) :
    (cs.comprAlg = COMPR_ALG_LIBZ ∨ cs.comprAlg = COMPR_ALG_NONE) ∧
    (∀ (W : Type) (writeF : W → List Nat → W × Nat) (fuel : Nat) (data : List Nat)
      (w : W) (cs' : CompressorState) (n : Nat), data ≠ [] →
      (WriteDataToArchive haveLibz writeF fuel cs data w).2 = WriteOut.ok cs' n →
      n ≠ 0) := by
  have halg := allocateCompressor_alg haveLibz c cs hA
  refine ⟨halg, ?_⟩
  intro W writeF fuel data w cs' n hdata h
  have hn := writeDataToArchive_ok_length haveLibz writeF fuel cs data w cs' n halg h
  rw [hn]
  simpa using hdata

/-- Witness for C10 at a concrete allocation and write. -/
theorem allocated_alg_fallthrough_unreachable_witness :
    AllocateCompressor true 0 = Except.ok csNone ∧ [7] ≠ ([] : List Nat) ∧
    (1 : Nat) ≠ 0 := by
  have hA : AllocateCompressor true 0 = Except.ok csNone := by
    unfold AllocateCompressor
    rw [ParseCompressionOption_none]
    norm_num [COMPR_ALG_NONE, COMPR_ALG_LIBZ, csNone]
  refine ⟨hA, by decide, ?_⟩
  exact (allocated_alg_fallthrough_unreachable true 0 csNone hA).2
    (List (List Nat)) collectW 3 [7] [] csNone 1 (by decide) (by decide)


/-! ## C4: behavior of a build without the deflate codec -/

/-- **C4 (amended).** In a build without zlib, `AllocateCompressor`,
`ReadDataFromArchive` and `WriteDataToArchive` all fail with the
"not built with zlib support" error for a Deflate selection — but
`EndCompressor` does not fail: its zlib branch is compiled out, so it
silently frees just the context. -/
theorem no_zlib_build_entry_points (c : Int)
    (hc : c = Z_DEFAULT_COMPRESSION ∨ (0 < c ∧ c ≤ 9)) :
    AllocateCompressor false c = Except.error DieErr.notBuiltWithZlib ∧
    (∀ (R : Type) (readF : R → R × List Nat) (fuel : Nat) (r : R),
      ReadDataFromArchive false readF fuel c r =
        (r, [], RStatus.fatal DieErr.notBuiltWithZlib)) ∧
    (∀ (W : Type) (writeF : W → List Nat → W × Nat) (fuel : Nat)
      (cs : CompressorState) (data : List Nat) (w : W),
      cs.comprAlg = COMPR_ALG_LIBZ →
      WriteDataToArchive false writeF fuel cs data w =
        (w, WriteOut.fatal DieErr.notBuiltWithZlib)) ∧
    (∀ (W : Type) (writeF : W → List Nat → W × Nat) (fuel : Nat)
      (cs : CompressorState) (w : W),
      cs.comprAlg = COMPR_ALG_LIBZ →
      EndCompressor false writeF fuel cs w = (w, EndOut.ok ⟨false, false, true⟩)) := by
  have hp := ParseCompressionOption_libz c hc
  refine ⟨?_, ?_, ?_, ?_⟩
  · unfold AllocateCompressor
    rw [hp]
    simp
  · intro R readF fuel r
    unfold ReadDataFromArchive
    rw [hp]
    norm_num [COMPR_ALG_NONE, COMPR_ALG_LIBZ]
  · intro W writeF fuel cs data w halg
    rw [WriteDataToArchive, if_pos halg]
    simp
  · intro W writeF fuel cs w _halg
    rw [EndCompressor, if_neg (by simp)]

/-- Counterexample to C4 as stated: in a no-zlib build, `EndCompressor`
on a Deflate context does not fail with the unsupported-algorithm error —
it returns normally, freeing only the context. -/
theorem no_zlib_endCompressor_counterexample :
    EndCompressor false fullW 1 csLibz () = ((), EndOut.ok ⟨false, false, true⟩) := by
  decide

/-- Witness for the amended C4 at the concrete hint 6. -/
theorem no_zlib_build_entry_points_witness :
    ((6 : Int) = Z_DEFAULT_COMPRESSION ∨ (0 < (6 : Int) ∧ (6 : Int) ≤ 9)) ∧
    AllocateCompressor false 6 = Except.error DieErr.notBuiltWithZlib ∧
    ReadDataFromArchive false feedR 3 6 ([] : List (List Nat)) =
      ([], [], RStatus.fatal DieErr.notBuiltWithZlib) ∧
    WriteDataToArchive false fullW 3 csLibz [7] () =
      ((), WriteOut.fatal DieErr.notBuiltWithZlib) ∧
    EndCompressor false fullW 3 csLibz () = ((), EndOut.ok ⟨false, false, true⟩) := by
  have hc : (6 : Int) = Z_DEFAULT_COMPRESSION ∨ (0 < (6 : Int) ∧ (6 : Int) ≤ 9) := by
    right; constructor <;> norm_num
  refine ⟨hc, (no_zlib_build_entry_points 6 hc).1, ?_, ?_, ?_⟩
  · exact (no_zlib_build_entry_points 6 hc).2.1 (List (List Nat)) feedR 3 []
  · exact (no_zlib_build_entry_points 6 hc).2.2.1 Unit fullW 3 csLibz [7] () rfl
  · exact (no_zlib_build_entry_points 6 hc).2.2.2 Unit fullW 3 csLibz () rfl

/-! ## C3: resource release in EndCompressor -/

theorem endCompressorZlib_freed {W : Type} (writeF : W → List Nat → W × Nat)
    (fuel : Nat) (cs : CompressorState) (w : W) :
    (∀ w1 f, EndCompressorZlib writeF fuel cs w = (w1, EndOut.ok f) →
      f = ⟨true, true, false⟩) ∧
    (∀ w1 e f, EndCompressorZlib writeF fuel cs w = (w1, EndOut.fatal e f) →
      f = ⟨false, false, false⟩) := by
  obtain ⟨w1, o, hd⟩ : ∃ w1 o,
      DeflateCompressorZlib writeF true fuel { cs.zp with avail_in := ([] : List Nat) }
        cs.zlibOut cs.zlibOutSize w = (w1, o) := ⟨_, _, rfl⟩
  unfold EndCompressorZlib
  simp only [hd]
  cases o with
  | ok zp1 out1 => simp [deflateEndModel]
  | fatal e => simp
  | nofuel => simp

/-- **C3 (amended).** On the successful path, `EndCompressor` on a Deflate
context releases everything: the staging buffer, the codec state and the
context.  But when the final flush or the codec teardown fails, the fatal
error aborts before any release: nothing is freed on the failure paths
(the process exit of `die_horribly` is what reclaims the memory). -/
theorem endCompressor_release_paths {W : Type} (writeF : W → List Nat → W × Nat)
    (fuel : Nat) (cs : CompressorState) (w : W)
    (halg : cs.comprAlg = COMPR_ALG_LIBZ) :
    (∀ w1 f, EndCompressor true writeF fuel cs w = (w1, EndOut.ok f) →
      f = ⟨true, true, true⟩) ∧
    (∀ w1 e f, EndCompressor true writeF fuel cs w = (w1, EndOut.fatal e f) →
      f = ⟨false, false, false⟩) := by
  rw [EndCompressor, if_pos ⟨rfl, halg⟩]
  obtain ⟨w1, o, he⟩ : ∃ w1 o, EndCompressorZlib writeF fuel cs w = (w1, o) := ⟨_, _, rfl⟩
  have hz := endCompressorZlib_freed writeF fuel cs w
  simp only [he]
  cases o with
  | ok f =>
    have hf := hz.1 w1 f he
    subst hf
    simp
  | fatal e f =>
    have hf := hz.2 w1 e f he
    subst hf
    simp
  | nofuel => simp

/-- Counterexample to C3 as stated: a failing final flush (the `WriteFunc`
reports a short write) makes `EndCompressorZlib` die before any `free`; no
owned resource is released on that exit path. -/
theorem endCompressor_release_counterexample :
    EndCompressor true shortW 1 csLibz () =
      ((), EndOut.fatal DieErr.couldNotWriteOutput ⟨false, false, false⟩) := by
  decide

/-- Witness for the amended C3: on a successful finalize all three
resources are released. -/
theorem endCompressor_release_paths_witness :
    csLibz.comprAlg = COMPR_ALG_LIBZ ∧
    EndCompressor true collectW 2 csLibz [] =
      ([[ZEOS]], EndOut.ok ⟨true, true, true⟩) ∧
    (⟨true, true, true⟩ : Freed) = ⟨true, true, true⟩ := by
  refine ⟨rfl, by decide, ?_⟩
  exact (endCompressor_release_paths collectW 2 csLibz [] rfl).1 [[ZEOS]]
    ⟨true, true, true⟩ (by decide)

/-! ## C2: no zero-length data chunk from the Deflate write path -/

theorem deflate_trace_nonempty {W : Type} (writeF0 : W → List Nat → W × Nat) (flush : Bool) :
    ∀ (fuel : Nat) (zp : ZStreamDef) (out : List Nat) (sz : Nat) (w : W)
      (log : List (List Nat)), (∀ c ∈ log, c ≠ []) →
    ∀ c ∈ (DeflateCompressorZlib (traceW writeF0) flush fuel zp out sz (w, log)).1.2,
      c ≠ [] := by
  intro fuel
  induction fuel with
  | zero =>
    intro zp out sz w log hlog
    simpa only [DeflateCompressorZlib] using hlog
  | succ f ih =>
    intro zp out sz w log hlog
    simp only [DeflateCompressorZlib, traceW]
    split
    · simpa using hlog
    · split
      · simpa using hlog
      · split
        · split
          · -- avail_out < sz: the writeF branch; the flushed chunk is nonempty
            rename_i hres hcond hlt
            have hout1 : out ++ (deflateModel zp flush (sz - out.length)).2.1 ≠ [] := by
              intro h0
              rw [h0] at hlt
              simp at hlt
            have hlog' : ∀ c ∈ log ++ [out ++ (deflateModel zp flush (sz - out.length)).2.1],
                c ≠ [] := by
              intro c hc
              rcases List.mem_append.mp hc with hc | hc
              · exact hlog c hc
              · rw [List.mem_singleton.mp hc]
                exact hout1
            split
            · simpa using hlog'
            · split
              · simpa using hlog'
              · exact ih _ _ _ _ _ hlog'
          · -- buffer reset without write
            split
            · simpa using hlog
            · exact ih _ _ _ _ _ hlog
        · -- no flush of the staging buffer
          split
          · simpa using hlog
          · exact ih _ _ _ _ _ hlog

theorem WriteDataToArchiveZlib_fst {W : Type} (writeF : W → List Nat → W × Nat)
    (fuel : Nat) (cs : CompressorState) (data : List Nat) (w : W) :
    (WriteDataToArchiveZlib writeF fuel cs data w).1 =
      (DeflateCompressorZlib writeF false fuel { cs.zp with avail_in := data }
        cs.zlibOut cs.zlibOutSize w).1 := by
  obtain ⟨w1, o, hd⟩ : ∃ w1 o,
      DeflateCompressorZlib writeF false fuel { cs.zp with avail_in := data }
        cs.zlibOut cs.zlibOutSize w = (w1, o) := ⟨_, _, rfl⟩
  unfold WriteDataToArchiveZlib
  simp only [hd]
  cases o <;> simp

theorem EndCompressorZlib_fst {W : Type} (writeF : W → List Nat → W × Nat)
    (fuel : Nat) (cs : CompressorState) (w : W) :
    (EndCompressorZlib writeF fuel cs w).1 =
      (DeflateCompressorZlib writeF true fuel { cs.zp with avail_in := ([] : List Nat) }
        cs.zlibOut cs.zlibOutSize w).1 := by
  obtain ⟨w1, o, hd⟩ : ∃ w1 o,
      DeflateCompressorZlib writeF true fuel { cs.zp with avail_in := ([] : List Nat) }
        cs.zlibOut cs.zlibOutSize w = (w1, o) := ⟨_, _, rfl⟩
  unfold EndCompressorZlib
  simp only [hd]
  cases o <;> simp [deflateEndModel]

theorem EndCompressor_fst_libz {W : Type} (writeF : W → List Nat → W × Nat)
    (fuel : Nat) (cs : CompressorState) (w : W)
    (halg : cs.comprAlg = COMPR_ALG_LIBZ) :
    (EndCompressor true writeF fuel cs w).1 = (EndCompressorZlib writeF fuel cs w).1 := by
  rw [EndCompressor, if_pos ⟨rfl, halg⟩]
  obtain ⟨w1, o, he⟩ : ∃ w1 o, EndCompressorZlib writeF fuel cs w = (w1, o) := ⟨_, _, rfl⟩
  simp only [he]
  cases o <;> simp

/-- **C2.** In the Deflate write path, the output callback is never invoked
with a zero-length chunk: wrapping any `WriteFunc` with a logger, every
chunk logged during `WriteDataToArchive` or `EndCompressor` on a Deflate
context is nonempty (assuming the log held only nonempty chunks before). -/
theorem deflate_write_never_zero_length_chunk {W : Type}
    (writeF0 : W → List Nat → W × Nat) (fuel : Nat) (cs : CompressorState)
    (data : List Nat) (w : W) (log : List (List Nat))
    (halg : cs.comprAlg = COMPR_ALG_LIBZ) (hlog : ∀ c ∈ log, c ≠ []) :
    (∀ c ∈ (WriteDataToArchive true (traceW writeF0) fuel cs data (w, log)).1.2,
      c ≠ []) ∧
    (∀ c ∈ (EndCompressor true (traceW writeF0) fuel cs (w, log)).1.2, c ≠ []) := by
  constructor
  · rw [WriteDataToArchive, if_pos halg, if_pos rfl, WriteDataToArchiveZlib_fst]
    exact deflate_trace_nonempty writeF0 false fuel _ cs.zlibOut cs.zlibOutSize w log hlog
  · rw [EndCompressor_fst_libz _ _ _ _ halg, EndCompressorZlib_fst]
    exact deflate_trace_nonempty writeF0 true fuel _ cs.zlibOut cs.zlibOutSize w log hlog

/-- Witness for C2: a concrete Deflate write and finalize, with the logged
chunks all nonempty. -/
theorem deflate_write_never_zero_length_chunk_witness :
    csLibz.comprAlg = COMPR_ALG_LIBZ ∧
    (∀ c ∈ ([] : List (List Nat)), c ≠ []) ∧
    (∀ c ∈ (EndCompressor true (traceW fullW) 3 csLibz ((), [])).1.2, c ≠ []) := by
  refine ⟨rfl, by simp, ?_⟩
  exact (deflate_write_never_zero_length_chunk fullW 3 csLibz [9] () [] rfl (by simp)).2

/-! ## C8: termination of the Deflate flush loop -/

theorem DeflateCompressorZlib_succ {W : Type} (writeF : W → List Nat → W × Nat)
    (flush : Bool) (fuel : Nat) (zp : ZStreamDef) (zlibOut : List Nat)
    (outSize : Nat) (w : W) :
    DeflateCompressorZlib writeF flush (fuel + 1) zp zlibOut outSize w =
      (if zp.avail_in = [] ∧ flush = false then (w, DLoopOut.ok zp zlibOut)
      else
        let step := deflateModel zp flush (outSize - zlibOut.length)
        let zp1 := step.1
        let out1 := zlibOut ++ step.2.1
        let res := step.2.2
        if res = ZRes.Z_STREAM_ERROR then (w, DLoopOut.fatal DieErr.couldNotCompress)
        else
          let avail_out := outSize - out1.length
          if (flush ∧ avail_out < outSize) ∨ avail_out = 0 ∨ zp1.avail_in ≠ [] then
            if avail_out < outSize then
              let wr := writeF w out1
              if wr.2 ≠ out1.length then (wr.1, DLoopOut.fatal DieErr.couldNotWriteOutput)
              else if res = ZRes.Z_STREAM_END then (wr.1, DLoopOut.ok zp1 [])
              else DeflateCompressorZlib writeF flush fuel zp1 [] outSize wr.1
            else
              if res = ZRes.Z_STREAM_END then (w, DLoopOut.ok zp1 [])
              else DeflateCompressorZlib writeF flush fuel zp1 [] outSize w
          else
            if res = ZRes.Z_STREAM_END then (w, DLoopOut.ok zp1 out1)
            else DeflateCompressorZlib writeF flush fuel zp1 out1 outSize w) := rfl

theorem deflate_exit {W : Type} (writeF : W → List Nat → W × Nat) (fuel : Nat)
    (zp : ZStreamDef) (out : List Nat) (sz : Nat) (w : W) (h : zp.avail_in = []) :
    DeflateCompressorZlib writeF false (fuel + 1) zp out sz w = (w, DLoopOut.ok zp out) := by
  rw [DeflateCompressorZlib_succ, if_pos ⟨h, rfl⟩]

theorem deflate_false_fuel {W : Type} (writeF : W → List Nat → W × Nat)
    (f : Nat) (zp : ZStreamDef) (out : List Nat) (sz : Nat) (w : W) :
    (DeflateCompressorZlib writeF false (f + 1 + 1) zp out sz w).2 ≠ DLoopOut.nofuel := by
  rw [DeflateCompressorZlib_succ]
  simp only []
  split
  · simp
  · split
    · simp
    · split
      · split
        · split
          · simp
          · split
            · simp
            · rw [deflate_exit _ _ _ _ _ _ rfl]
              simp
        · split
          · simp
          · rw [deflate_exit _ _ _ _ _ _ rfl]
            simp
      · split
        · simp
        · rw [deflate_exit _ _ _ _ _ _ rfl]
          simp

theorem deflateModel_z (st : ZStreamDef) (flush : Bool) (a : Nat) :
    (deflateModel st flush a).1 =
      ⟨[], (st.hold ++ st.avail_in ++
        (if flush ∧ st.finQueued = false then [ZEOS] else [])).drop a,
        st.finQueued || flush⟩ := rfl

theorem deflateModel_emit (st : ZStreamDef) (flush : Bool) (a : Nat) :
    (deflateModel st flush a).2.1 =
      (st.hold ++ st.avail_in ++
        (if flush ∧ st.finQueued = false then [ZEOS] else [])).take a := rfl

theorem deflateModel_res (st : ZStreamDef) (flush : Bool) (a : Nat) :
    (deflateModel st flush a).2.2 =
      (if flush ∧ (st.hold ++ st.avail_in ++
          (if flush ∧ st.finQueued = false then [ZEOS] else [])).drop a = []
        then ZRes.Z_STREAM_END else ZRes.Z_OK) := rfl




theorem deflate_true_fuel {W : Type} (writeF : W → List Nat → W × Nat) :
    ∀ (fuel : Nat) (A H : List Nat) (F : Bool) (out : List Nat) (sz : Nat) (w : W),
    out.length < sz →
    A.length + H.length + (if F then 0 else 1) + 1 ≤ fuel →
    (DeflateCompressorZlib writeF true fuel ⟨A, H, F⟩ out sz w).2 ≠ DLoopOut.nofuel := by
  intro fuel
  induction fuel with
  | zero =>
    intro A H F out sz w _ h3
    split at h3 <;> omega
  | succ f ih =>
    intro A H F out sz w h1 h3
    have h2 : 0 < sz := by omega
    rw [DeflateCompressorZlib_succ]
    rw [if_neg (by simp : ¬((⟨A, H, F⟩ : ZStreamDef).avail_in = [] ∧ true = false))]
    simp only [deflateModel_z, deflateModel_emit, deflateModel_res, Bool.or_true,
      eq_self_iff_true, true_and]
    generalize hPg : H ++ A ++ (if F = false then [ZEOS] else []) = P
    have hPlen : P.length = H.length + A.length + (if F then 0 else 1) := by
      rw [← hPg]
      by_cases hf : F <;> simp [hf] <;> omega
    have hrne : (if P.drop (sz - out.length) = [] then ZRes.Z_STREAM_END
        else ZRes.Z_OK) ≠ ZRes.Z_STREAM_ERROR := by split <;> simp
    rw [if_neg hrne]
    set t := out ++ P.take (sz - out.length) with ht
    by_cases hd0 : P.drop (sz - out.length) = []
    · -- the codec reported stream end: every remaining branch terminates
      have hr : (if P.drop (sz - out.length) = [] then ZRes.Z_STREAM_END
          else ZRes.Z_OK) = ZRes.Z_STREAM_END := if_pos hd0
      simp only [hr]
      (repeat' split) <;> simp_all
    · -- the codec still holds data: the loop recurses after flushing
      have hr : (if P.drop (sz - out.length) = [] then ZRes.Z_STREAM_END
          else ZRes.Z_OK) = ZRes.Z_OK := if_neg hd0
      simp only [hr, show (ZRes.Z_OK = ZRes.Z_STREAM_END) = False from by simp, if_false]
      have hdp := List.length_pos.mpr hd0
      have hdl := List.length_drop (sz - out.length) P
      have htl : t.length = out.length + min (sz - out.length) P.length := by
        rw [ht, List.length_append, List.length_take]
      by_cases hC3 : sz - t.length < sz
      · rw [if_pos (Or.inl hC3 :
          sz - t.length < sz ∨ sz - t.length = 0 ∨ ¬(([] : List Nat) = [])), if_pos hC3]
        by_cases hC4 : (writeF w t).2 ≠ t.length
        · rw [if_pos hC4]
          simp
        · rw [if_neg hC4]
          apply ih
          · simpa using h2
          · simp only [List.length_nil, if_pos]
            omega
      · exfalso
        omega

/-- **C8.** The `DeflateCompressorZlib` flush loop terminates: with the
staging buffer below capacity (as it always is between loop entries),
`avail_in + hold + 3` fuel is enough for the loop to finish — for a
non-finalize call it exits once all supplied input is consumed, for a
finalize call once the model codec (which always makes forward progress)
reports stream end. -/
theorem deflate_flush_loop_terminates {W : Type} (writeF : W → List Nat → W × Nat)
    (flush : Bool) (zp : ZStreamDef) (out : List Nat) (sz : Nat) (w : W) (fuel : Nat)
    (hout : out.length < sz)
    (hfuel : zp.avail_in.length + zp.hold.length + 3 ≤ fuel) :
    (DeflateCompressorZlib writeF flush fuel zp out sz w).2 ≠ DLoopOut.nofuel := by
  obtain ⟨A, H, F⟩ := zp
  simp only at hfuel
  cases flush
  · obtain ⟨g, rfl⟩ : ∃ g, fuel = g + 1 + 1 := ⟨fuel - 2, by omega⟩
    exact deflate_false_fuel writeF g _ out sz w
  · apply deflate_true_fuel writeF fuel A H F out sz w hout
    split <;> omega

/-- Witness for C8 at a concrete finalizing flush. -/
theorem deflate_flush_loop_terminates_witness :
    ([] : List Nat).length < ZLIB_OUT_SIZE ∧
    (⟨[5], [], false⟩ : ZStreamDef).avail_in.length +
      (⟨[5], [], false⟩ : ZStreamDef).hold.length + 3 ≤ 5 ∧
    (DeflateCompressorZlib collectW true 5 ⟨[5], [], false⟩ [] ZLIB_OUT_SIZE []).2 ≠
      DLoopOut.nofuel := by
  refine ⟨by decide, by decide, ?_⟩
  exact deflate_flush_loop_terminates collectW true ⟨[5], [], false⟩ [] ZLIB_OUT_SIZE
    [] 5 (by decide) (by decide)

/-! ## The collecting write session (towards the round-trip) -/

theorem deflate_nf_collect (f : Nat) (A H : List Nat) (F : Bool) (out : List Nat)
    (sz : Nat) (w : List (List Nat)) (hout : out.length < sz) :
    ∃ new zp' out',
      DeflateCompressorZlib collectW false (f + 1 + 1) ⟨A, H, F⟩ out sz w =
        (w ++ new, DLoopOut.ok zp' out') ∧
      new.flatten ++ out' ++ zp'.hold = out ++ H ++ A ∧
      zp'.avail_in = [] ∧ zp'.finQueued = F ∧
      out'.length < sz ∧ ∀ c ∈ new, c ≠ [] := by
  have h2 : 0 < sz := by omega
  by_cases hA : A = []
  · subst hA
    rw [deflate_exit _ _ _ _ _ _ rfl]
    exact ⟨[], ⟨[], H, F⟩, out, by simp, by simp, rfl, rfl, hout, by simp⟩
  · rw [DeflateCompressorZlib_succ]
    rw [if_neg (fun hc => hA hc.1 :
      ¬((⟨A, H, F⟩ : ZStreamDef).avail_in = [] ∧ false = false))]
    simp only [deflateModel_z, deflateModel_emit, deflateModel_res, Bool.or_false,
      Bool.false_eq_true, false_and, if_false, List.append_nil, false_or,
      show (ZRes.Z_OK = ZRes.Z_STREAM_ERROR) = False from by simp,
      show (ZRes.Z_OK = ZRes.Z_STREAM_END) = False from by simp,
      collectW, ne_eq, eq_self_iff_true, not_true, or_false, not_false_iff, if_true]
    set t := out ++ (H ++ A).take (sz - out.length) with ht
    have htl : t.length = out.length + min (sz - out.length) (H ++ A).length := by
      rw [ht, List.length_append, List.length_take]
    by_cases h0 : sz - t.length = 0
    · rw [if_pos h0, if_pos (by omega : sz - t.length < sz)]
      rw [deflate_exit _ _ _ _ _ _ rfl]
      refine ⟨[t], ⟨[], (H ++ A).drop (sz - out.length), F⟩, [], rfl, ?_, rfl, rfl,
        by simpa using h2, ?_⟩
      · simp only [List.flatten, List.append_nil, ht]
        rw [List.append_assoc, List.take_append_drop, List.append_assoc]
      · intro c hc
        rw [List.mem_singleton.mp hc]
        exact List.ne_nil_of_length_pos (by omega)
    · rw [if_neg h0]
      rw [deflate_exit _ _ _ _ _ _ rfl]
      refine ⟨[], ⟨[], (H ++ A).drop (sz - out.length), F⟩, t, by simp, ?_, rfl, rfl,
        by omega, by simp⟩
      simp only [List.flatten, List.nil_append, ht]
      rw [List.append_assoc, List.take_append_drop, List.append_assoc]

theorem deflate_flush_collect :
    ∀ (fuel : Nat) (A H : List Nat) (F : Bool) (out : List Nat) (sz : Nat)
      (w : List (List Nat)),
    out.length < sz →
    A.length + H.length + (if F then 0 else 1) + 1 ≤ fuel →
    ∃ new,
      DeflateCompressorZlib collectW true fuel ⟨A, H, F⟩ out sz w =
        (w ++ new, DLoopOut.ok ⟨[], [], true⟩ []) ∧
      new.flatten = out ++ H ++ A ++ (if F then [] else [ZEOS]) ∧
      ∀ c ∈ new, c ≠ [] := by
  intro fuel
  induction fuel with
  | zero =>
    intro A H F out sz w _ h3
    split at h3 <;> omega
  | succ f ih =>
    intro A H F out sz w h1 h3
    have h2 : 0 < sz := by omega
    rw [DeflateCompressorZlib_succ]
    rw [if_neg (by simp : ¬((⟨A, H, F⟩ : ZStreamDef).avail_in = [] ∧ true = false))]
    simp only [deflateModel_z, deflateModel_emit, deflateModel_res, Bool.or_true,
      eq_self_iff_true, true_and, collectW, ne_eq, not_true, or_false, if_false,
      not_false_iff, if_true]
    generalize hPg : H ++ A ++ (if F = false then [ZEOS] else []) = P
    have hPlen : P.length = H.length + A.length + (if F then 0 else 1) := by
      rw [← hPg]
      by_cases hf : F <;> simp [hf] <;> omega
    have hrne : (if P.drop (sz - out.length) = [] then ZRes.Z_STREAM_END
        else ZRes.Z_OK) ≠ ZRes.Z_STREAM_ERROR := by split <;> simp
    rw [if_neg hrne]
    set t := out ++ P.take (sz - out.length) with ht
    have htl : t.length = out.length + min (sz - out.length) P.length := by
      rw [ht, List.length_append, List.length_take]
    by_cases hd0 : P.drop (sz - out.length) = []
    · -- stream end reported on this very call
      have htake : P.take (sz - out.length) = P := by
        have hsplit := List.take_append_drop (sz - out.length) P
        rw [hd0, List.append_nil] at hsplit
        exact hsplit
      have hr : (if P.drop (sz - out.length) = [] then ZRes.Z_STREAM_END
          else ZRes.Z_OK) = ZRes.Z_STREAM_END := if_pos hd0
      simp only [hr, hd0, eq_self_iff_true, if_true]
      by_cases hlt : sz - t.length < sz
      · rw [if_pos (Or.inl hlt : sz - t.length < sz ∨ sz - t.length = 0), if_pos hlt]
        refine ⟨[t], rfl, ?_, ?_⟩
        · simp only [List.flatten, List.append_nil]
          rw [ht, htake, ← hPg]
          by_cases hf : F <;> simp [hf]
        · intro c hc
          rw [List.mem_singleton.mp hc]
          exact List.ne_nil_of_length_pos (by omega)
      · have ht0 : t = [] := List.eq_nil_of_length_eq_zero (by omega)
        rw [if_neg ?hc]
        case hc =>
          rintro (hx | hx)
          · exact hlt hx
          · omega
        have hsub : out ++ P.take (sz - out.length) = [] := by
          rw [← ht]
          exact ht0
        rcases List.append_eq_nil.mp hsub with ⟨hout0, htk0⟩
        have hP0 : P = [] := by
          rcases List.take_eq_nil_iff.mp htk0 with hx | hx
          · exfalso
            rw [hout0] at h1
            simp at h1
            omega
          · exact hx
        have hHA : H = [] ∧ A = [] ∧ (if F = false then [ZEOS] else []) = [] := by
          rw [hP0] at hPg
          simpa [List.append_eq_nil] using hPg
        have hF : F = true := by
          rcases hHA with ⟨-, -, hmk⟩
          by_cases hf : F
          · exact hf
          · rw [if_pos (by simp [hf])] at hmk
            simp at hmk
        refine ⟨[], ?_, ?_, by simp⟩
        · simp [ht0]
        · rcases hHA with ⟨hH0, hA0, -⟩
          simp [hH0, hA0, hF, hout0]
    · -- the codec still holds data: flush the chunk and recurse
      have hr : (if P.drop (sz - out.length) = [] then ZRes.Z_STREAM_END
          else ZRes.Z_OK) = ZRes.Z_OK := if_neg hd0
      simp only [hr, show (ZRes.Z_OK = ZRes.Z_STREAM_END) = False from by simp, if_false]
      have hdp := List.length_pos.mpr hd0
      have hdl := List.length_drop (sz - out.length) P
      by_cases hC3 : sz - t.length < sz
      · rw [if_pos (Or.inl hC3 : sz - t.length < sz ∨ sz - t.length = 0), if_pos hC3]
        obtain ⟨new2, hrec, hflat2, hchunks2⟩ :=
          ih [] (P.drop (sz - out.length)) true [] sz (w ++ [t]) (by simpa using h2)
            (by simp only [List.length_nil, if_pos]; omega)
        rw [hrec]
        refine ⟨[t] ++ new2, by rw [List.append_assoc], ?_, ?_⟩
        · rw [List.flatten_append, hflat2]
          simp only [List.flatten, List.append_nil, List.nil_append, if_pos]
          rw [ht, List.append_assoc, List.take_append_drop, ← hPg]
          by_cases hf : F <;> simp [hf]
        · intro c hc
          rcases List.mem_append.mp hc with hc | hc
          · rw [List.mem_singleton.mp hc]
            exact List.ne_nil_of_length_pos (by omega)
          · exact hchunks2 c hc
      · exfalso
        omega

theorem WriteDataToArchiveZlib_eq_ok {W : Type} (writeF : W → List Nat → W × Nat)
    (fuel : Nat) (cs : CompressorState) (data : List Nat) (w w1 : W)
    (zp1 : ZStreamDef) (out1 : List Nat)
    (h : DeflateCompressorZlib writeF false fuel { cs.zp with avail_in := data }
        cs.zlibOut cs.zlibOutSize w = (w1, DLoopOut.ok zp1 out1)) :
    WriteDataToArchiveZlib writeF fuel cs data w =
      (w1, WriteOut.ok { cs with zp := zp1, zlibOut := out1 } data.length) := by
  unfold WriteDataToArchiveZlib
  simp only [h]

theorem EndCompressorZlib_eq_ok {W : Type} (writeF : W → List Nat → W × Nat)
    (fuel : Nat) (cs : CompressorState) (w w1 : W) (zp1 : ZStreamDef) (out1 : List Nat)
    (h : DeflateCompressorZlib writeF true fuel { cs.zp with avail_in := ([] : List Nat) }
        cs.zlibOut cs.zlibOutSize w = (w1, DLoopOut.ok zp1 out1)) :
    EndCompressorZlib writeF fuel cs w = (w1, EndOut.ok ⟨true, true, false⟩) := by
  unfold EndCompressorZlib
  simp only [h]
  simp [deflateEndModel]

theorem writePieces_libz :
    ∀ (pieces : List (List Nat)) (H0 out0 : List Nat) (w : List (List Nat)),
    out0.length < ZLIB_OUT_SIZE →
    ∃ H1 out1 new,
      writePieces true pieces
        ⟨COMPR_ALG_LIBZ, ⟨[], H0, false⟩, out0, ZLIB_OUT_SIZE⟩ w =
        some (⟨COMPR_ALG_LIBZ, ⟨[], H1, false⟩, out1, ZLIB_OUT_SIZE⟩, w ++ new) ∧
      out1.length < ZLIB_OUT_SIZE ∧
      new.flatten ++ out1 ++ H1 = out0 ++ H0 ++ pieces.flatten ∧
      ∀ c ∈ new, c ≠ [] := by
  intro pieces
  induction pieces with
  | nil =>
    intro H0 out0 w hout
    exact ⟨H0, out0, [], by simp [writePieces], hout, by simp, by simp⟩
  | cons p rest ih =>
    intro H0 out0 w hout
    obtain ⟨new1, zp', out', hloop, hflat1, havail', hfin', hout', hch1⟩ :=
      deflate_nf_collect (H0.length + p.length + 1) p H0 false out0 ZLIB_OUT_SIZE w hout
    obtain ⟨A', H', F'⟩ := zp'
    have hA' : A' = [] := havail'
    have hF' : F' = false := hfin'
    subst hA'
    subst hF'
    have hW := WriteDataToArchiveZlib_eq_ok collectW (H0.length + p.length + 1 + 1 + 1)
      ⟨COMPR_ALG_LIBZ, ⟨[], H0, false⟩, out0, ZLIB_OUT_SIZE⟩ p w (w ++ new1)
      ⟨[], H', false⟩ out' hloop
    obtain ⟨H1, out1, new2, hrec, hout1, hflat2, hch2⟩ := ih H' out' (w ++ new1) hout'
    refine ⟨H1, out1, new1 ++ new2, ?_, hout1, ?_, ?_⟩
    · simp only [writePieces]
      rw [show (⟨COMPR_ALG_LIBZ, ⟨[], H0, false⟩, out0, ZLIB_OUT_SIZE⟩ :
          CompressorState).zp.avail_in.length +
          (⟨COMPR_ALG_LIBZ, ⟨[], H0, false⟩, out0, ZLIB_OUT_SIZE⟩ :
          CompressorState).zp.hold.length + p.length + 3 =
          H0.length + p.length + 1 + 1 + 1 from by simp]
      rw [WriteDataToArchive, if_pos rfl, if_pos rfl, hW]
      show writePieces true rest ⟨COMPR_ALG_LIBZ, ⟨[], H', false⟩, out', ZLIB_OUT_SIZE⟩
        (w ++ new1) = _
      rw [hrec, List.append_assoc]
    · simp only [List.flatten_append, List.flatten_cons, List.append_assoc] at hflat1 hflat2 ⊢
      calc new1.flatten ++ (new2.flatten ++ (out1 ++ H1))
          = new1.flatten ++ (out' ++ (H' ++ rest.flatten)) := by rw [hflat2]
        _ = (new1.flatten ++ (out' ++ H')) ++ rest.flatten := by simp [List.append_assoc]
        _ = (out0 ++ (H0 ++ p)) ++ rest.flatten := by rw [hflat1]
        _ = out0 ++ (H0 ++ (p ++ rest.flatten)) := by simp [List.append_assoc]
    · intro c hc
      rcases List.mem_append.mp hc with hc | hc
      · exact hch1 c hc
      · exact hch2 c hc

theorem runSession_libz (c : Int) (hc : c = Z_DEFAULT_COMPRESSION ∨ (0 < c ∧ c ≤ 9))
    (pieces : List (List Nat)) :
    ∃ chunks, runSession true c pieces = some chunks ∧
      chunks.flatten = pieces.flatten ++ [ZEOS] ∧ ∀ ch ∈ chunks, ch ≠ [] := by
  have hA : AllocateCompressor true c =
      Except.ok ⟨COMPR_ALG_LIBZ, ⟨[], [], false⟩, [], ZLIB_OUT_SIZE⟩ := by
    unfold AllocateCompressor
    rw [ParseCompressionOption_libz c hc]
    simp [InitCompressorZlib]
  obtain ⟨H1, out1, new, hwp, hout1, hflat, hch⟩ :=
    writePieces_libz pieces [] [] [] (by simp [ZLIB_OUT_SIZE])
  obtain ⟨new3, hloop3, hflat3, hch3⟩ :=
    deflate_flush_collect (List.length ([] : List Nat) + H1.length + 3) [] H1 false out1
      ZLIB_OUT_SIZE ([] ++ new) hout1 (by simp)
  have hEZ := EndCompressorZlib_eq_ok collectW (List.length ([] : List Nat) + H1.length + 3)
    ⟨COMPR_ALG_LIBZ, ⟨[], H1, false⟩, out1, ZLIB_OUT_SIZE⟩ ([] ++ new)
    (([] ++ new) ++ new3) ⟨[], [], true⟩ [] hloop3
  have hEnd : EndCompressor true collectW (List.length ([] : List Nat) + H1.length + 3)
      ⟨COMPR_ALG_LIBZ, ⟨[], H1, false⟩, out1, ZLIB_OUT_SIZE⟩ ([] ++ new) =
      (([] ++ new) ++ new3, EndOut.ok ⟨true, true, true⟩) := by
    rw [EndCompressor, if_pos ⟨rfl, rfl⟩]
    simp only [hEZ]
  refine ⟨([] ++ new) ++ new3, ?_, ?_, ?_⟩
  · unfold runSession
    rw [hA]
    show (match writePieces true pieces ⟨COMPR_ALG_LIBZ, ⟨[], [], false⟩, [], ZLIB_OUT_SIZE⟩ []
        with
      | some (cs1, w1) =>
        match EndCompressor true collectW
            (cs1.zp.avail_in.length + cs1.zp.hold.length + 3) cs1 w1 with
        | (w2, EndOut.ok _) => some w2
        | _ => none
      | none => none) = some (([] ++ new) ++ new3)
    rw [hwp]
    show (match EndCompressor true collectW
        (List.length ([] : List Nat) + H1.length + 3)
        ⟨COMPR_ALG_LIBZ, ⟨[], H1, false⟩, out1, ZLIB_OUT_SIZE⟩ ([] ++ new) with
      | (w2, EndOut.ok _) => some w2
      | _ => none) = some (([] ++ new) ++ new3)
    rw [hEnd]
  · rw [List.flatten_append]
    simp only [List.nil_append] at hflat ⊢
    rw [hflat3]
    simp only [List.append_assoc, List.nil_append, if_neg (by simp : ¬(false = true)),
      List.append_nil] at hflat ⊢
    simp only [← List.append_assoc] at hflat ⊢
    rw [hflat]
  · intro ch hch0
    rcases List.mem_append.mp hch0 with hx | hx
    · exact hch ch (by simpa using hx)
    · exact hch3 ch hx

/-! ## The passthrough session and the zlib reader: one inner pass -/
theorem allocate_none : AllocateCompressor true 0 = Except.ok csNone := by
  unfold AllocateCompressor
  rw [ParseCompressionOption_none]
  norm_num [COMPR_ALG_NONE, COMPR_ALG_LIBZ, csNone]

theorem writePieces_none :
    ∀ (pieces : List (List Nat)) (cs : CompressorState) (w : List (List Nat)),
    cs.comprAlg = COMPR_ALG_NONE →
    writePieces true pieces cs w = some (cs, w ++ pieces) := by
  intro pieces
  induction pieces with
  | nil =>
    intro cs w _
    simp [writePieces]
  | cons p rest ih =>
    intro cs w halg
    have hne : cs.comprAlg ≠ COMPR_ALG_LIBZ := by
      rw [halg]
      unfold COMPR_ALG_NONE COMPR_ALG_LIBZ
      norm_num
    have hW : WriteDataToArchive true collectW
        (cs.zp.avail_in.length + cs.zp.hold.length + p.length + 3) cs p w =
        (w ++ [p], WriteOut.ok cs p.length) := by
      rw [WriteDataToArchive, if_neg hne, if_pos halg]
      unfold WriteDataToArchiveNone
      simp [collectW]
    simp only [writePieces]
    rw [hW]
    show writePieces true rest cs (w ++ [p]) = _
    rw [ih cs (w ++ [p]) halg]
    simp

theorem runSession_none (pieces : List (List Nat)) :
    runSession true 0 pieces = some pieces := by
  unfold runSession
  rw [allocate_none]
  show (match writePieces true pieces csNone [] with
    | some (cs1, w1) =>
      match EndCompressor true collectW
          (cs1.zp.avail_in.length + cs1.zp.hold.length + 3) cs1 w1 with
      | (w2, EndOut.ok _) => some w2
      | _ => none
    | none => none) = some pieces
  rw [writePieces_none pieces csNone [] rfl]
  show (match EndCompressor true collectW
      (csNone.zp.avail_in.length + csNone.zp.hold.length + 3) csNone ([] ++ pieces) with
    | (w2, EndOut.ok _) => some w2
    | _ => none) = some pieces
  rw [EndCompressor, if_neg (by norm_num [csNone, COMPR_ALG_NONE, COMPR_ALG_LIBZ])]
  simp

theorem ReadNoneLoop_feed :
    ∀ (chunks : List (List Nat)) (fuel : Nat) (acc : List (List Nat)),
    (∀ ch ∈ chunks, ch ≠ []) → chunks.length + 1 ≤ fuel →
    ReadNoneLoop feedR fuel chunks acc = ([], acc ++ chunks, RStatus.ok) := by
  intro chunks
  induction chunks with
  | nil =>
    intro fuel acc _ hfuel
    obtain ⟨f, rfl⟩ : ∃ f, fuel = f + 1 := ⟨fuel - 1, by omega⟩
    simp [ReadNoneLoop, feedR]
  | cons c rest ih =>
    intro fuel acc hne hfuel
    obtain ⟨f, rfl⟩ : ∃ f, fuel = f + 1 := ⟨fuel - 1, by omega⟩
    simp only [ReadNoneLoop, feedR]
    rw [if_neg (by simpa using hne c (by simp))]
    rw [ih f (acc ++ [c]) (fun x hx => hne x (by simp [hx])) (by simpa using hfuel)]
    simp

theorem read_none_feed (chunks : List (List Nat)) (fuel : Nat)
    (hne : ∀ ch ∈ chunks, ch ≠ []) (hfuel : chunks.length + 1 ≤ fuel) :
    ReadDataFromArchive true feedR fuel 0 chunks = ([], chunks, RStatus.ok) := by
  unfold ReadDataFromArchive
  rw [ParseCompressionOption_none]
  show (if COMPR_ALG_NONE = COMPR_ALG_NONE then ReadDataFromArchiveNone feedR fuel chunks
    else if COMPR_ALG_NONE = COMPR_ALG_LIBZ then
      if true = true then ReadDataFromArchiveZlib feedR fuel chunks
      else (chunks, [], RStatus.fatal DieErr.notBuiltWithZlib)
    else (chunks, [], RStatus.ok)) = ([], chunks, RStatus.ok)
  rw [if_pos rfl]
  unfold ReadDataFromArchiveNone
  rw [ReadNoneLoop_feed chunks fuel [] hne hfuel]
  simp

theorem inflateModel_z (st : ZStreamInf) (a : Nat) :
    (inflateModel st a).1 =
      ⟨[], (st.hold ++ st.avail_in.filter (fun b => b ≠ ZEOS)).drop a,
        st.ended || decide (ZEOS ∈ st.avail_in)⟩ := rfl

theorem inflateModel_out (st : ZStreamInf) (a : Nat) :
    (inflateModel st a).2.1 =
      (st.hold ++ st.avail_in.filter (fun b => b ≠ ZEOS)).take a := rfl

theorem inflateModel_res (st : ZStreamInf) (a : Nat) :
    (inflateModel st a).2.2 =
      (if (st.ended || decide (ZEOS ∈ st.avail_in)) = true ∧
          (st.hold ++ st.avail_in.filter (fun b => b ≠ ZEOS)).drop a = []
        then ZRes.Z_STREAM_END
        else if st.avail_in = [] ∧
            (st.hold ++ st.avail_in.filter (fun b => b ≠ ZEOS)).take a = []
          then ZRes.Z_BUF_ERROR else ZRes.Z_OK) := rfl

theorem ReadZlibInner_feedspec (fuel : Nat) (A Hh : List Nat) (E : Bool) (res : ZRes)
    (acc : List (List Nat)) (hA : A ≠ []) (hfuel : 2 ≤ fuel) :
    ReadZlibInner fuel ⟨A, Hh, E⟩ res acc =
      (⟨[], (Hh ++ A.filter (fun b => b ≠ ZEOS)).drop ZLIB_OUT_SIZE,
        E || decide (ZEOS ∈ A)⟩,
       (if (E || decide (ZEOS ∈ A)) = true ∧
          (Hh ++ A.filter (fun b => b ≠ ZEOS)).drop ZLIB_OUT_SIZE = []
        then ZRes.Z_STREAM_END else ZRes.Z_OK),
       acc ++ [(Hh ++ A.filter (fun b => b ≠ ZEOS)).take ZLIB_OUT_SIZE], RStatus.ok) := by
  obtain ⟨f, rfl⟩ : ∃ f, fuel = f + 1 + 1 := ⟨fuel - 2, by omega⟩
  simp only [ReadZlibInner]
  rw [if_neg (hA : ¬(⟨A, Hh, E⟩ : ZStreamInf).avail_in = [])]
  simp only [inflateModel_z, inflateModel_out, inflateModel_res,
    show (A = [] ∧ (Hh ++ A.filter (fun b => b ≠ ZEOS)).take ZLIB_OUT_SIZE = []) = False
      from by simp [hA], if_false]
  rw [if_neg ?hno]
  case hno =>
    split <;> simp
  rw [if_pos ?hst]
  case hst =>
    rw [List.length_take]
    omega
  rw [if_pos trivial]

/-! ## The zlib reader: outer feed loop, drain loop, bounds -/
theorem ReadZlibOuter_feed :
    ∀ (chunks : List (List Nat)) (fuel : Nat) (Hh : List Nat) (E : Bool)
      (res : ZRes) (acc : List (List Nat)),
    (∀ ch ∈ chunks, ch ≠ []) → chunks.length + 1 ≤ fuel →
    (res = ZRes.Z_STREAM_END → Hh = []) →
    ∃ Hh2 E2 res2 new,
      ReadZlibOuter feedR fuel chunks ⟨[], Hh, E⟩ res acc =
        ([], ⟨[], Hh2, E2⟩, res2, acc ++ new, RStatus.ok) ∧
      new.flatten ++ Hh2 = Hh ++ chunks.flatten.filter (fun b => b ≠ ZEOS) ∧
      E2 = (E || decide (ZEOS ∈ chunks.flatten)) ∧
      (res2 = ZRes.Z_STREAM_END → Hh2 = []) ∧
      (chunks = [] → res2 = res) := by
  intro chunks
  induction chunks with
  | nil =>
    intro fuel Hh E res acc _ hfuel hend
    obtain ⟨f, rfl⟩ : ∃ f, fuel = f + 1 := ⟨fuel - 1, by omega⟩
    refine ⟨Hh, E, res, [], ?_, ?_, ?_, hend, fun _ => rfl⟩
    · simp [ReadZlibOuter, feedR]
    · simp
    · simp
  | cons c rest ih =>
    intro fuel Hh E res acc hchunks hfuel hend
    obtain ⟨f, rfl⟩ : ∃ f, fuel = f + 1 := ⟨fuel - 1, by omega⟩
    have hc : c ≠ [] := hchunks c (List.mem_cons_self c rest)
    have hstep : ReadZlibOuter feedR (f + 1) (c :: rest) ⟨[], Hh, E⟩ res acc =
        ReadZlibOuter feedR f rest
          ⟨[], (Hh ++ c.filter (fun b => b ≠ ZEOS)).drop ZLIB_OUT_SIZE,
            E || decide (ZEOS ∈ c)⟩
          (if (E || decide (ZEOS ∈ c)) = true ∧
              (Hh ++ c.filter (fun b => b ≠ ZEOS)).drop ZLIB_OUT_SIZE = []
            then ZRes.Z_STREAM_END else ZRes.Z_OK)
          (acc ++ [(Hh ++ c.filter (fun b => b ≠ ZEOS)).take ZLIB_OUT_SIZE]) := by
      simp only [ReadZlibOuter, feedR]
      rw [if_neg hc]
      rw [show ({ avail_in := c, hold := Hh, ended := E } : ZStreamInf) =
        ⟨c, Hh, E⟩ from rfl]
      rw [ReadZlibInner_feedspec (c.length + 1) c Hh E res acc hc
        (by have := List.length_pos.mpr hc; omega)]
    obtain ⟨Hh2, E2, res2, new2, heq, hflat, hE2, hres2, _⟩ :=
      ih f ((Hh ++ c.filter (fun b => b ≠ ZEOS)).drop ZLIB_OUT_SIZE)
        (E || decide (ZEOS ∈ c))
        (if (E || decide (ZEOS ∈ c)) = true ∧
            (Hh ++ c.filter (fun b => b ≠ ZEOS)).drop ZLIB_OUT_SIZE = []
          then ZRes.Z_STREAM_END else ZRes.Z_OK)
        (acc ++ [(Hh ++ c.filter (fun b => b ≠ ZEOS)).take ZLIB_OUT_SIZE])
        (fun ch hm => hchunks ch (List.mem_cons_of_mem c hm))
        (by simp at hfuel ⊢; omega)
        (by
          intro h
          by_cases hcond : (E || decide (ZEOS ∈ c)) = true ∧
              (Hh ++ c.filter (fun b => b ≠ ZEOS)).drop ZLIB_OUT_SIZE = []
          · exact hcond.2
          · rw [if_neg hcond] at h
            exact absurd h (by simp))
    refine ⟨Hh2, E2, res2,
      [(Hh ++ c.filter (fun b => b ≠ ZEOS)).take ZLIB_OUT_SIZE] ++ new2,
      ?_, ?_, ?_, hres2, fun h => absurd h (List.cons_ne_nil c rest)⟩
    · rw [hstep, heq]
      simp [List.append_assoc]
    · calc ([(Hh ++ c.filter (fun b => b ≠ ZEOS)).take ZLIB_OUT_SIZE] ++
            new2).flatten ++ Hh2
          = (Hh ++ c.filter (fun b => b ≠ ZEOS)).take ZLIB_OUT_SIZE ++
            (new2.flatten ++ Hh2) := by simp [List.append_assoc]
        _ = (Hh ++ c.filter (fun b => b ≠ ZEOS)).take ZLIB_OUT_SIZE ++
            ((Hh ++ c.filter (fun b => b ≠ ZEOS)).drop ZLIB_OUT_SIZE ++
              (rest.flatten).filter (fun b => b ≠ ZEOS)) := by rw [hflat]
        _ = ((Hh ++ c.filter (fun b => b ≠ ZEOS)).take ZLIB_OUT_SIZE ++
            (Hh ++ c.filter (fun b => b ≠ ZEOS)).drop ZLIB_OUT_SIZE) ++
              (rest.flatten).filter (fun b => b ≠ ZEOS) :=
            (List.append_assoc _ _ _).symm
        _ = (Hh ++ c.filter (fun b => b ≠ ZEOS)) ++
              (rest.flatten).filter (fun b => b ≠ ZEOS) := by
            rw [List.take_append_drop]
        _ = Hh ++ ((c :: rest).flatten).filter (fun b => b ≠ ZEOS) := by
            rw [List.flatten_cons, List.filter_append, List.append_assoc]
    · rw [hE2]
      simp [List.mem_append, Bool.or_assoc]

theorem ReadZlibDrain_end (fuel : Nat) (zp : ZStreamInf) (res : ZRes)
    (acc : List (List Nat)) (hres : res = ZRes.Z_STREAM_END) (hfuel : 1 ≤ fuel) :
    ReadZlibDrain fuel zp res acc = (zp, res, acc, RStatus.ok) := by
  obtain ⟨f, rfl⟩ : ∃ f, fuel = f + 1 := ⟨fuel - 1, by omega⟩
  simp only [ReadZlibDrain]
  rw [if_pos hres]

theorem ReadZlibDrain_ended :
    ∀ (fuel : Nat) (Hh : List Nat) (res : ZRes) (acc : List (List Nat)),
    res ≠ ZRes.Z_STREAM_END → Hh.length + 2 ≤ fuel →
    ∃ new, ReadZlibDrain fuel ⟨[], Hh, true⟩ res acc =
        (⟨[], [], true⟩, ZRes.Z_STREAM_END, acc ++ new, RStatus.ok) ∧
      new.flatten = Hh := by
  intro fuel
  induction fuel with
  | zero => intro Hh res acc _ hfuel; omega
  | succ f ih =>
    intro Hh res acc hres hfuel
    simp only [ReadZlibDrain]
    rw [if_neg hres]
    simp only [inflateModel_z, inflateModel_out, inflateModel_res]
    simp only [List.filter_nil, List.append_nil, List.not_mem_nil, decide_False,
      Bool.or_false, true_and, eq_self_iff_true]
    by_cases hd : Hh.drop ZLIB_OUT_SIZE = []
    · rw [if_pos hd, if_neg (by simp : ¬(ZRes.Z_STREAM_END ≠ ZRes.Z_OK ∧
        ZRes.Z_STREAM_END ≠ ZRes.Z_STREAM_END)),
        if_pos (by rw [List.length_take]; omega)]
      have hlen : Hh.length ≤ ZLIB_OUT_SIZE := by
        have := List.drop_eq_nil_iff.mp hd
        omega
      refine ⟨[Hh.take ZLIB_OUT_SIZE], ?_, ?_⟩
      · rw [hd, ReadZlibDrain_end f ⟨[], [], true⟩ ZRes.Z_STREAM_END _ rfl
          (by omega)]
      · simp [List.take_of_length_le hlen]
    · rw [if_neg hd]
      have hne : Hh ≠ [] := fun h => hd (by simp [h])
      have htake : ¬(Hh.take ZLIB_OUT_SIZE = []) := by
        simp [List.take_eq_nil_iff, hne, ZLIB_OUT_SIZE]
      rw [if_neg htake]
      rw [if_neg (by simp : ¬(ZRes.Z_OK ≠ ZRes.Z_OK ∧
        ZRes.Z_OK ≠ ZRes.Z_STREAM_END)),
        if_pos (by rw [List.length_take]; omega)]
      have hfl : (Hh.drop ZLIB_OUT_SIZE).length + 2 ≤ f := by
        rw [List.length_drop]
        have hsz : 0 < ZLIB_OUT_SIZE := by norm_num [ZLIB_OUT_SIZE]
        have : Hh.length > ZLIB_OUT_SIZE := by
          by_contra hcon
          exact hd (List.drop_eq_nil_iff.mpr (by omega))
        omega
      obtain ⟨new2, heq2, hflat2⟩ := ih (Hh.drop ZLIB_OUT_SIZE) ZRes.Z_OK
        (acc ++ [Hh.take ZLIB_OUT_SIZE]) (by simp) hfl
      refine ⟨Hh.take ZLIB_OUT_SIZE :: new2, ?_, ?_⟩
      · rw [heq2]
        simp [List.append_assoc]
      · simp only [List.flatten_cons, hflat2, List.take_append_drop]

theorem ReadZlibDrain_unended :
    ∀ (fuel : Nat) (Hh : List Nat) (res : ZRes) (acc : List (List Nat)),
    res ≠ ZRes.Z_STREAM_END → Hh.length + 2 ≤ fuel →
    ∃ zp2 res2 acc2, ReadZlibDrain fuel ⟨[], Hh, false⟩ res acc =
        (zp2, res2, acc2, RStatus.fatal DieErr.couldNotUncompress) := by
  intro fuel
  induction fuel with
  | zero => intro Hh res acc _ hfuel; omega
  | succ f ih =>
    intro Hh res acc hres hfuel
    simp only [ReadZlibDrain]
    rw [if_neg hres]
    simp only [inflateModel_z, inflateModel_out, inflateModel_res]
    simp only [List.filter_nil, List.append_nil, List.not_mem_nil, decide_False,
      Bool.or_false, Bool.false_eq_true, false_and, if_false, eq_self_iff_true,
      true_and]
    by_cases ht : Hh.take ZLIB_OUT_SIZE = []
    · rw [if_pos ht, if_pos (by simp : ZRes.Z_BUF_ERROR ≠ ZRes.Z_OK ∧
        ZRes.Z_BUF_ERROR ≠ ZRes.Z_STREAM_END)]
      exact ⟨_, _, _, rfl⟩
    · rw [if_neg ht,
        if_neg (by simp : ¬(ZRes.Z_OK ≠ ZRes.Z_OK ∧
          ZRes.Z_OK ≠ ZRes.Z_STREAM_END)),
        if_pos (by rw [List.length_take]; omega)]
      have hne : Hh ≠ [] := by
        intro h
        exact ht (by simp [h])
      have hfl : (Hh.drop ZLIB_OUT_SIZE).length + 2 ≤ f := by
        rw [List.length_drop]
        have hsz : 0 < ZLIB_OUT_SIZE := by norm_num [ZLIB_OUT_SIZE]
        have : 0 < Hh.length := List.length_pos.mpr hne
        omega
      exact ih (Hh.drop ZLIB_OUT_SIZE) ZRes.Z_OK (acc ++ [Hh.take ZLIB_OUT_SIZE])
        (by simp) hfl

theorem ReadZlibInner_not_oob :
    ∀ (fuel : Nat) (zp : ZStreamInf) (res : ZRes) (acc : List (List Nat)),
    (ReadZlibInner fuel zp res acc).2.2.2 ≠ RStatus.oob := by
  intro fuel
  induction fuel with
  | zero => intro zp res acc; simp [ReadZlibInner]
  | succ f ih =>
    intro zp res acc
    simp only [ReadZlibInner]
    by_cases h1 : zp.avail_in = []
    · rw [if_pos h1]; simp
    · rw [if_neg h1]
      by_cases h2 : (inflateModel zp ZLIB_OUT_SIZE).2.2 ≠ ZRes.Z_OK ∧
          (inflateModel zp ZLIB_OUT_SIZE).2.2 ≠ ZRes.Z_STREAM_END
      · rw [if_pos h2]; simp
      · rw [if_neg h2, if_pos (by rw [inflateModel_out, List.length_take]; omega)]
        exact ih _ _ _

theorem ReadZlibOuter_not_oob {R : Type} (readF : R → R × List Nat) :
    ∀ (fuel : Nat) (r : R) (zp : ZStreamInf) (res : ZRes) (acc : List (List Nat)),
    (ReadZlibOuter readF fuel r zp res acc).2.2.2.2 ≠ RStatus.oob := by
  intro fuel
  induction fuel with
  | zero => intro r zp res acc; simp [ReadZlibOuter]
  | succ f ih =>
    intro r zp res acc
    simp only [ReadZlibOuter]
    by_cases hrd : (readF r).2 = []
    · rw [if_pos hrd]; simp
    · rw [if_neg hrd]
      rcases hI : ReadZlibInner ((readF r).2.length + 1)
        { zp with avail_in := (readF r).2 } res acc with ⟨zp2, res2, acc2, st⟩
      cases st with
      | ok => exact ih _ _ _ _
      | fatal e => simp
      | oob =>
        have h := ReadZlibInner_not_oob ((readF r).2.length + 1)
          { zp with avail_in := (readF r).2 } res acc
        rw [hI] at h
        simp at h
      | nofuel => simp

theorem ReadZlibDrain_not_oob :
    ∀ (fuel : Nat) (zp : ZStreamInf) (res : ZRes) (acc : List (List Nat)),
    (ReadZlibDrain fuel zp res acc).2.2.2 ≠ RStatus.oob := by
  intro fuel
  induction fuel with
  | zero => intro zp res acc; simp [ReadZlibDrain]
  | succ f ih =>
    intro zp res acc
    simp only [ReadZlibDrain]
    by_cases h1 : res = ZRes.Z_STREAM_END
    · rw [if_pos h1]; simp
    · rw [if_neg h1]
      by_cases h2 : (inflateModel zp ZLIB_OUT_SIZE).2.2 ≠ ZRes.Z_OK ∧
          (inflateModel zp ZLIB_OUT_SIZE).2.2 ≠ ZRes.Z_STREAM_END
      · rw [if_pos h2]; simp
      · rw [if_neg h2, if_pos (by rw [inflateModel_out, List.length_take]; omega)]
        exact ih _ _ _

theorem ReadDataFromArchiveZlib_eq_ok {R : Type} (readF : R → R × List Nat)
    (fuel : Nat) (r : R) (r1 : R) (zp1 : ZStreamInf) (res1 : ZRes)
    (acc1 : List (List Nat)) (zp3 : ZStreamInf) (res3 : ZRes)
    (acc2 : List (List Nat))
    (hO : ReadZlibOuter readF fuel r ⟨[], [], false⟩ ZRes.Z_OK [] =
      (r1, zp1, res1, acc1, RStatus.ok))
    (hD : ReadZlibDrain fuel { zp1 with avail_in := ([] : List Nat) } res1 acc1 =
      (zp3, res3, acc2, RStatus.ok)) :
    ReadDataFromArchiveZlib readF fuel r = (r1, acc2, RStatus.ok) := by
  unfold ReadDataFromArchiveZlib
  simp only [hO, hD, inflateEndModel]
  rw [if_neg (by simp : ¬(ZRes.Z_OK ≠ ZRes.Z_OK))]

theorem read_zlib_feed (chunks : List (List Nat)) (S : List Nat) (fuel : Nat)
    (hne : ∀ ch ∈ chunks, ch ≠ []) (hflat : chunks.flatten = S ++ [ZEOS])
    (hS : ∀ b ∈ S, b < 256) (hfuel1 : chunks.length + 1 ≤ fuel)
    (hfuel2 : S.length + 2 ≤ fuel) :
    ∃ acc, ReadDataFromArchiveZlib feedR fuel chunks = ([], acc, RStatus.ok) ∧
      acc.flatten = S := by
  obtain ⟨Hh2, E2, res2, new1, hO, hflat1, hE2, hend2, _⟩ :=
    ReadZlibOuter_feed chunks fuel [] false ZRes.Z_OK [] hne hfuel1
      (fun _ => rfl)
  have hfilter : (chunks.flatten).filter (fun b => b ≠ ZEOS) = S := by
    rw [hflat, List.filter_append]
    have h1 : S.filter (fun b => b ≠ ZEOS) = S :=
      List.filter_eq_self.mpr (fun b hb => by
        have := hS b hb
        simp [ZEOS]
        omega)
    rw [h1]
    simp [ZEOS]
  have hE2' : E2 = true := by
    rw [hE2, hflat]
    simp [List.mem_append, ZEOS]
  have hflat1' : new1.flatten ++ Hh2 = S := by
    rw [hfilter] at hflat1
    simpa using hflat1
  rw [hE2'] at hO
  by_cases hres2 : res2 = ZRes.Z_STREAM_END
  · have hHh2 : Hh2 = [] := hend2 hres2
    rw [hHh2] at hO
    have hD := ReadZlibDrain_end fuel ⟨[], [], true⟩ res2 ([] ++ new1) hres2
      (by omega)
    refine ⟨new1, ?_, ?_⟩
    · have := ReadDataFromArchiveZlib_eq_ok feedR fuel chunks [] ⟨[], [], true⟩
        res2 ([] ++ new1) ⟨[], [], true⟩ res2 ([] ++ new1) hO hD
      simpa using this
    · rw [hHh2] at hflat1'
      simpa using hflat1'
  · have hlen : Hh2.length ≤ S.length := by
      have := congrArg List.length hflat1'
      simp [List.length_append] at this
      omega
    obtain ⟨new2, hD, hflat2⟩ := ReadZlibDrain_ended fuel Hh2 res2 ([] ++ new1)
      hres2 (by omega)
    refine ⟨new1 ++ new2, ?_, ?_⟩
    · have := ReadDataFromArchiveZlib_eq_ok feedR fuel chunks [] ⟨[], Hh2, true⟩
        res2 ([] ++ new1) ⟨[], [], true⟩ ZRes.Z_STREAM_END (([] ++ new1) ++ new2)
        hO hD
      simpa [List.append_assoc] using this
    · rw [List.flatten_append, hflat2, hflat1']

/-! ## The round trip and the drain loop: claims C1, C6, C9 -/
theorem ReadDataFromArchive_libz {R : Type} (readF : R → R × List Nat)
    (fuel : Nat) (c : Int) (hc : c = Z_DEFAULT_COMPRESSION ∨ (0 < c ∧ c ≤ 9))
    (r : R) :
    ReadDataFromArchive true readF fuel c r =
      ReadDataFromArchiveZlib readF fuel r := by
  unfold ReadDataFromArchive
  rw [ParseCompressionOption_libz c hc]
  show (if COMPR_ALG_LIBZ = COMPR_ALG_NONE then ReadDataFromArchiveNone readF fuel r
    else if COMPR_ALG_LIBZ = COMPR_ALG_LIBZ then
      if true = true then ReadDataFromArchiveZlib readF fuel r
      else (r, [], RStatus.fatal DieErr.notBuiltWithZlib)
    else (r, [], RStatus.ok)) = ReadDataFromArchiveZlib readF fuel r
  rw [if_neg (by norm_num [COMPR_ALG_NONE, COMPR_ALG_LIBZ]), if_pos rfl,
    if_pos rfl]

/-- **C6** In the Deflate read path, once upstream EOF has been reached the
drain loop runs the decompressor with no new input (`avail_in = []`).  If the
model stream has seen the end-of-stream marker, the loop forwards every
residual byte span to the sink (`acc ++ new` with `new.flatten` exactly the
codec-internal residue) and stops with `Z_STREAM_END`; if the stream never
ended, the decompressor eventually reports a result other than ok or
stream-end and the loop dies with the "could not uncompress data" error. -/
theorem drain_recovers_residual (fuel : Nat) (Hh : List Nat) (E : Bool)
    (res : ZRes) (acc : List (List Nat)) (hres : res ≠ ZRes.Z_STREAM_END)
    (hfuel : Hh.length + 2 ≤ fuel) :
    (E = true → ∃ new, ReadZlibDrain fuel ⟨[], Hh, E⟩ res acc =
        (⟨[], [], true⟩, ZRes.Z_STREAM_END, acc ++ new, RStatus.ok) ∧
      new.flatten = Hh) ∧
    (E = false → ∃ zp2 res2 acc2, ReadZlibDrain fuel ⟨[], Hh, E⟩ res acc =
        (zp2, res2, acc2, RStatus.fatal DieErr.couldNotUncompress)) := by
  constructor
  · intro hE
    subst hE
    exact ReadZlibDrain_ended fuel Hh res acc hres hfuel
  · intro hE
    subst hE
    exact ReadZlibDrain_unended fuel Hh res acc hres hfuel

theorem drain_recovers_residual_witness :
    (ZRes.Z_OK ≠ ZRes.Z_STREAM_END) ∧ ([5].length + 2 ≤ 3) ∧
    ((true = true → ∃ new, ReadZlibDrain 3 ⟨[], [5], true⟩ ZRes.Z_OK [] =
        (⟨[], [], true⟩, ZRes.Z_STREAM_END, [] ++ new, RStatus.ok) ∧
      new.flatten = [5]) ∧
    (true = false → ∃ zp2 res2 acc2, ReadZlibDrain 3 ⟨[], [5], true⟩ ZRes.Z_OK [] =
        (zp2, res2, acc2, RStatus.fatal DieErr.couldNotUncompress))) :=
  ⟨by decide, by decide,
    drain_recovers_residual 3 [5] true ZRes.Z_OK [] (by decide) (by decide)⟩

/-- **C9** In the Deflate read path, the trailing `'\0'` store
`out[ZLIB_OUT_SIZE - zp->avail_out]` is always within the
`ZLIB_OUT_SIZE + 1`-byte buffer: the produced span never exceeds the
`ZLIB_OUT_SIZE` capacity advertised to the decompressor, so the embedded
bounds-checked store never reports out-of-bounds, on any inner or drain
step. -/
theorem zlib_read_trailing_store_in_bounds {R : Type}
    (readF : R → R × List Nat) (fuel : Nat) (r : R) :
    (ReadDataFromArchiveZlib readF fuel r).2.2 ≠ RStatus.oob := by
  unfold ReadDataFromArchiveZlib
  rcases hO : ReadZlibOuter readF fuel r ⟨[], [], false⟩ ZRes.Z_OK [] with
    ⟨r1, zp1, res1, acc1, st1⟩
  cases st1 with
  | ok =>
    show (match ReadZlibDrain fuel { zp1 with avail_in := ([] : List Nat) }
        res1 acc1 with
      | (zp3, _res3, acc2, RStatus.ok) =>
        if inflateEndModel zp3 ≠ ZRes.Z_OK then
          (r1, acc2, RStatus.fatal DieErr.couldNotCloseLibrary)
        else (r1, acc2, RStatus.ok)
      | (_, _, acc2, st) => (r1, acc2, st)).2.2 ≠ RStatus.oob
    rcases hD : ReadZlibDrain fuel { zp1 with avail_in := ([] : List Nat) }
        res1 acc1 with ⟨zp3, res3, acc2, st3⟩
    cases st3 with
    | ok => simp [inflateEndModel]
    | fatal e => simp
    | oob =>
      have h := ReadZlibDrain_not_oob fuel
        { zp1 with avail_in := ([] : List Nat) } res1 acc1
      rw [hD] at h
      simp at h
    | nofuel => simp
  | fatal e => simp
  | oob =>
    have h := ReadZlibOuter_not_oob readF fuel r ⟨[], [], false⟩ ZRes.Z_OK []
    rw [hO] at h
    simp at h
  | nofuel => simp

/-- **C1** Round trip: for every sequence of byte pieces `pieces` (bytes in
range, pieces nonempty) and every compression hint in `{0, 1, ..., 9}`,
running a full write session (`AllocateCompressor`, one `WriteDataToArchive`
per piece, `EndCompressor`) and feeding the collected output chunks to
`ReadDataFromArchive` with the same hint delivers exactly the concatenation
of the pieces, bit-for-bit and in order, to the downstream sink, with any
large enough read fuel. -/
theorem round_trip_write_read (c : Int) (hc : 0 ≤ c ∧ c ≤ 9)
    (pieces : List (List Nat)) (hp : ∀ p ∈ pieces, p ≠ [])
    (hbytes : ∀ b ∈ pieces.flatten, b < 256) :
    ∃ chunks, runSession true c pieces = some chunks ∧
      ∀ fuel, chunks.length + pieces.flatten.length + 3 ≤ fuel →
        ∃ r2 delivered,
          ReadDataFromArchive true feedR fuel c chunks =
            (r2, delivered, RStatus.ok) ∧
          delivered.flatten = pieces.flatten := by
  by_cases hc0 : c = 0
  · subst hc0
    refine ⟨pieces, runSession_none pieces, ?_⟩
    intro fuel hfuel
    refine ⟨[], pieces, ?_, rfl⟩
    exact read_none_feed pieces fuel hp (by omega)
  · have hlibz : c = Z_DEFAULT_COMPRESSION ∨ (0 < c ∧ c ≤ 9) :=
      Or.inr ⟨by omega, hc.2⟩
    obtain ⟨chunks, hrun, hflatc, hchne⟩ := runSession_libz c hlibz pieces
    refine ⟨chunks, hrun, ?_⟩
    intro fuel hfuel
    obtain ⟨acc, hread, haccflat⟩ := read_zlib_feed chunks pieces.flatten fuel
      hchne hflatc hbytes (by omega) (by omega)
    rw [ReadDataFromArchive_libz feedR fuel c hlibz chunks]
    exact ⟨[], acc, hread, haccflat⟩

theorem round_trip_write_read_witness :
    ((0 : Int) ≤ 6 ∧ (6 : Int) ≤ 9) ∧
    (∀ p ∈ ([[1], [2, 3]] : List (List Nat)), p ≠ []) ∧
    (∀ b ∈ ([[1], [2, 3]] : List (List Nat)).flatten, b < 256) ∧
    (∃ chunks, runSession true 6 [[1], [2, 3]] = some chunks ∧
      ∀ fuel, chunks.length + ([[1], [2, 3]] : List (List Nat)).flatten.length
          + 3 ≤ fuel →
        ∃ r2 delivered,
          ReadDataFromArchive true feedR fuel 6 chunks =
            (r2, delivered, RStatus.ok) ∧
          delivered.flatten = ([[1], [2, 3]] : List (List Nat)).flatten) :=
  ⟨⟨by norm_num, by norm_num⟩, by decide, by decide,
    round_trip_write_read 6 ⟨by norm_num, by norm_num⟩ [[1], [2, 3]]
      (by decide) (by decide)⟩
